import Mathlib

/-!
# Verification of the youtube-to-mp3 cover-resolution cascade and download pipeline

Shallow embedding of the core logic of the `youtube_to_mp3` package:

* `AlbumMatcher.normalize_album_name` / `AlbumMatcher.album_names_match`
  (`album_cover_retriever.py`),
* `AlbumCoverRetriever.retrieve_cover`, `_retrieve_cover_without_album` and
  `_download_cover_data` (`album_cover_retriever.py`),
* the `MusicBrainzRetriever` and `ITunesRetriever` catalog adapters
  (`album_cover_retriever.py`),
* `AlbumCoverCache`, `DownloadPipeline.create_download_jobs`,
  `DownloadPipeline._ensure_unique_path` and
  `DownloadPipeline._pre_cache_album_covers` (`pipeline.py`),
* `AudioDownloader._embed_album_cover_with_cache` (`downloader.py`).

Python strings are modelled as Lean `String`s restricted to their ASCII
behaviour (`str.lower`, `str.strip`, `str.split`, substring tests); remote
HTTP traffic, the catalog JSON payloads and the tag-writing collaborators are
modelled as explicit oracle functions supplied as parameters, exactly at the
boundaries where the source code calls `requests` / `mutagen`.
-/

namespace YtMp3

/-! ## Python string primitives (ASCII model) -/

/-- The whitespace characters stripped by Python's `str.strip()` (ASCII part). -/
def isPySpace (c : Char) : Bool :=
  c = ' ' ∨ c = '\t' ∨ c = '\n' ∨ c = '\r' ∨ c = Char.ofNat 11 ∨ c = Char.ofNat 12

/-- Drop leading Python whitespace. -/
def dropLead (l : List Char) : List Char := l.dropWhile isPySpace

/-- Drop trailing Python whitespace. -/
def dropTrail (l : List Char) : List Char := (l.reverse.dropWhile isPySpace).reverse

/-- Python `str.strip()` on a character list. -/
def stripL (l : List Char) : List Char := dropTrail (dropLead l)

/-- Python `str.strip()`. -/
def pyStrip (s : String) : String := ⟨stripL s.data⟩

/-- Python `str.lower()` (ASCII model). -/
def pyLower (s : String) : String := ⟨s.data.map Char.toLower⟩

/-- Python `s.split(sep)[0]`: the prefix of `s` before the first occurrence of
the (single-character) separator `b`, or all of `s` if `b` does not occur. -/
def cutAt (b : Char) (s : String) : String := ⟨s.data.takeWhile (· ≠ b)⟩

/-- Python truthiness of a string: non-empty. -/
def strTruthy (s : String) : Bool := s ≠ ""

/-- Python truthiness of an `Optional[str]` field: present and non-empty. -/
def optStrTruthy : Option String → Bool
  | none => false
  | some s => s ≠ ""

/-- Substring test on lists: `needle` occurs contiguously inside `hay`
(the semantics of Python's `in` operator on strings). -/
def substrL (needle hay : List Char) : Bool :=
  hay.tails.any (fun t => List.isPrefixOf needle t)

/-- Substring test on strings (Python `needle in hay`). -/
def substrB (needle hay : String) : Bool := substrL needle.data hay.data

/-- Python whitespace split (`str.split()` with no argument): splits on runs of
whitespace and never returns empty tokens.  Auxiliary accumulator form. -/
def wsSplitAux : List Char → List Char → List (List Char)
  | [], acc => if acc = [] then [] else [acc.reverse]
  | c :: rest, acc =>
    if isPySpace c then
      if acc = [] then wsSplitAux rest [] else acc.reverse :: wsSplitAux rest []
    else wsSplitAux rest (c :: acc)

/-- Python `str.split()` (no separator argument). -/
def wsSplit (s : String) : List String :=
  (wsSplitAux s.data []).map String.mk

/-! ## `AlbumMatcher` (album_cover_retriever.py, lines 22-62) -/

/-- `AlbumMatcher.normalize_album_name`:
`strip`, then `split('(')[0].strip()`, then `split('[')[0].strip()`. -/
def normalize_album_name (album_name : String) : String :=
  let s1 := pyStrip album_name
  let s2 := pyStrip (cutAt '(' s1)
  pyStrip (cutAt '[' s2)

/-- The word-overlap test of `album_names_match`:
`len(common) / max(len(expected), len(returned)) >= 0.5`, computed on Python
sets of whitespace tokens (modelled as deduplicated token lists).  Python's
float division is modelled exactly by rational division (token counts are far
below any range where `float` rounding could differ from `ℚ` on this
comparison). -/
def overlapAtLeastHalf (expectedWords returnedWords : List String) : Bool :=
  let common := expectedWords.filter (· ∈ returnedWords)
  (1 : ℚ)/2 ≤ (common.length : ℚ) / (max expectedWords.length returnedWords.length : ℚ)

/-- `AlbumMatcher.album_names_match` (album_cover_retriever.py, lines 34-62). -/
def album_names_match (returned_album expected_album : String) : Bool × String :=
  if expected_album = "" then (true, "no_album_expected")
  else
    let expected_norm := normalize_album_name (pyLower expected_album)
    let returned_norm := normalize_album_name (pyLower returned_album)
    if expected_norm = returned_norm then (true, "exact")
    else if substrB expected_norm returned_norm || substrB returned_norm expected_norm then
      (true, "partial")
    else
      let expected_words := (wsSplit expected_norm).dedup
      let returned_words := (wsSplit returned_norm).dedup
      if expected_words ≠ [] ∧ returned_words ≠ [] then
        if overlapAtLeastHalf expected_words returned_words then (true, "word_overlap")
        else (false, "no_match")
      else (false, "no_match")

example : normalize_album_name "X (Deluxe)" = "X" := by decide
example : album_names_match "abc" "abc" = (true, "exact") := by decide
example : album_names_match "Abc (Live)" "abc" = (true, "exact") := by decide
example : album_names_match "abcd" "abc" = (true, "partial") := by decide
example : album_names_match "(Live)" "(a)" = (true, "exact") := by decide
example : album_names_match "(Live)" "xy" = (true, "partial") := by decide

/-! ## Character-level facts about `Char.toLower` and `isPySpace` -/

lemma charOfNat_toNat {n : Nat} (h : n.isValidChar) : (Char.ofNat n).toNat = n := by
  unfold Char.ofNat
  rw [dif_pos h]
  rfl

lemma char_eq_iff_toNat {c d : Char} : c = d ↔ c.toNat = d.toNat :=
  ⟨fun h => h ▸ rfl, fun h => Char.ext (UInt32.ext h)⟩

lemma toLower_toNat (c : Char) :
    (Char.toLower c).toNat =
      if c.toNat ≥ 65 ∧ c.toNat ≤ 90 then c.toNat + 32 else c.toNat := by
  by_cases h : c.toNat ≥ 65 ∧ c.toNat ≤ 90
  · rw [if_pos h]
    have he : Char.toLower c = Char.ofNat (c.toNat + 32) := by
      simp only [Char.toLower]
      rw [if_pos h]
    rw [he]
    exact charOfNat_toNat (Or.inl (by omega))
  · rw [if_neg h]
    have he : Char.toLower c = c := by
      simp only [Char.toLower]
      rw [if_neg h]
    rw [he]

lemma isPySpace_eq_decide (c : Char) :
    isPySpace c = decide (c.toNat = 32 ∨ c.toNat = 9 ∨ c.toNat = 10 ∨
      c.toNat = 13 ∨ c.toNat = 11 ∨ c.toNat = 12) := by
  unfold isPySpace
  apply decide_eq_decide.mpr
  simp only [char_eq_iff_toNat, show (' ').toNat = 32 from rfl,
    show ('\t').toNat = 9 from rfl, show ('\n').toNat = 10 from rfl,
    show ('\r').toNat = 13 from rfl, show (Char.ofNat 11).toNat = 11 by decide,
    show (Char.ofNat 12).toNat = 12 by decide]

lemma isPySpace_toLower (c : Char) : isPySpace (Char.toLower c) = isPySpace c := by
  rw [isPySpace_eq_decide, isPySpace_eq_decide, toLower_toNat]
  by_cases h : c.toNat ≥ 65 ∧ c.toNat ≤ 90
  · rw [if_pos h]
    apply decide_eq_decide.mpr
    omega
  · rw [if_neg h]

lemma toLower_eq_iff {b : Char}
    (hb : b.toNat < 65 ∨ (90 < b.toNat ∧ b.toNat < 97) ∨ 122 < b.toNat) (c : Char) :
    Char.toLower c = b ↔ c = b := by
  rw [char_eq_iff_toNat, char_eq_iff_toNat, toLower_toNat]
  by_cases h : c.toNat ≥ 65 ∧ c.toNat ≤ 90
  · rw [if_pos h]; omega
  · rw [if_neg h]

lemma ne_brackets_of_isPySpace {c : Char} (hc : isPySpace c = true) :
    c ≠ '(' ∧ c ≠ '[' := by
  rw [isPySpace_eq_decide, decide_eq_true_eq] at hc
  have h1 : ('(').toNat = 40 := rfl
  have h2 : ('[').toNat = 91 := rfl
  constructor
  · intro h
    rw [char_eq_iff_toNat, h1] at h
    omega
  · intro h
    rw [char_eq_iff_toNat, h2] at h
    omega

/-! ## Strip/takeWhile interaction lemmas -/

lemma mem_ws_of_mem_takeWhile {l : List Char} {c : Char}
    (h : c ∈ l.takeWhile isPySpace) : isPySpace c = true := by
  have := List.all_takeWhile (l := l) (p := isPySpace)
  exact (List.all_eq_true.mp this) c h

lemma dropTrail_append_ws {u v : List Char} (hv : ∀ c ∈ v, isPySpace c = true) :
    dropTrail (u ++ v) = dropTrail u := by
  unfold dropTrail
  rw [List.reverse_append, List.dropWhile_append_of_pos]
  intro a ha
  exact hv a (List.mem_reverse.mp ha)

lemma stripL_append_ws {u v : List Char} (hv : ∀ c ∈ v, isPySpace c = true) :
    stripL (u ++ v) = stripL u := by
  unfold stripL dropLead
  rw [List.dropWhile_append]
  by_cases h : (u.dropWhile isPySpace).isEmpty
  · rw [if_pos h]
    have hu : u.dropWhile isPySpace = [] := by
      rwa [List.isEmpty_iff] at h
    have hv' : v.dropWhile isPySpace = [] := by
      rw [List.dropWhile_eq_nil_iff]
      intro x hx
      exact hv x hx
    rw [hu, hv']
  · rw [if_neg h]
    exact dropTrail_append_ws hv

lemma stripL_wsLead {u v : List Char} (hv : ∀ c ∈ v, isPySpace c = true) :
    stripL (v ++ u) = stripL u := by
  unfold stripL dropLead
  rw [List.dropWhile_append_of_pos hv]

lemma exists_ws_suffix (l : List Char) :
    ∃ w, l = dropTrail l ++ w ∧ ∀ c ∈ w, isPySpace c = true := by
  refine ⟨(l.reverse.takeWhile isPySpace).reverse, ?_, ?_⟩
  · have h := List.takeWhile_append_dropWhile isPySpace l.reverse
    calc l = l.reverse.reverse := (l.reverse_reverse).symm
      _ = (l.reverse.takeWhile isPySpace ++ l.reverse.dropWhile isPySpace).reverse := by
            rw [h]
      _ = (l.reverse.dropWhile isPySpace).reverse ++
            (l.reverse.takeWhile isPySpace).reverse := by
            rw [List.reverse_append]
      _ = dropTrail l ++ (l.reverse.takeWhile isPySpace).reverse := rfl
  · intro c hc
    exact mem_ws_of_mem_takeWhile (List.mem_reverse.mp hc)

lemma stripL_takeWhile_dropTrail {p : Char → Bool} (y : List Char) :
    stripL ((dropTrail y).takeWhile p) = stripL (y.takeWhile p) := by
  obtain ⟨w, hy, hw⟩ := exists_ws_suffix y
  conv_rhs => rw [hy]
  rw [List.takeWhile_append]
  by_cases hc : ((dropTrail y).takeWhile p).length = (dropTrail y).length
  · rw [if_pos hc]
    have hD : (dropTrail y).takeWhile p = dropTrail y :=
      (List.takeWhile_prefix p).eq_of_length hc
    rw [hD]
    rw [stripL_append_ws]
    intro c hcmem
    exact hw c ((List.takeWhile_prefix p).subset hcmem)
  · rw [if_neg hc]

lemma stripL_takeWhile_stripL {p : Char → Bool}
    (hp : ∀ c, isPySpace c = true → p c = true) (x : List Char) :
    stripL ((stripL x).takeWhile p) = stripL (x.takeWhile p) := by
  have h2 : stripL ((stripL x).takeWhile p) = stripL ((dropLead x).takeWhile p) :=
    stripL_takeWhile_dropTrail (dropLead x)
  have h1 : stripL ((dropLead x).takeWhile p) = stripL (x.takeWhile p) := by
    have hx : x = x.takeWhile isPySpace ++ dropLead x :=
      (List.takeWhile_append_dropWhile isPySpace x).symm
    conv_rhs => rw [hx]
    rw [List.takeWhile_append_of_pos (fun a ha => hp a (mem_ws_of_mem_takeWhile ha))]
    rw [stripL_wsLead (fun c hc => mem_ws_of_mem_takeWhile hc)]
  rw [h2, h1]

/-! ## Characterizing `normalize_album_name` -/

/-- Keep a character unless it is `'('` or `'['`. -/
def noBracket (c : Char) : Bool := decide (c ≠ '(') && decide (c ≠ '[')

/-- Truncate a string at the first `'('` or `'['`. -/
def cutBrackets (s : String) : String := ⟨s.data.takeWhile noBracket⟩

lemma ws_imp_ne_paren : ∀ c, isPySpace c = true → decide (c ≠ '(') = true :=
  fun c hc => decide_eq_true (ne_brackets_of_isPySpace hc).1

lemma ws_imp_ne_bracket : ∀ c, isPySpace c = true → decide (c ≠ '[') = true :=
  fun c hc => decide_eq_true (ne_brackets_of_isPySpace hc).2

lemma ws_imp_noBracket : ∀ c, isPySpace c = true → noBracket c = true := fun c hc => by
  unfold noBracket
  rw [ws_imp_ne_paren c hc, ws_imp_ne_bracket c hc]
  rfl

/-- The three-stage strip/cut/strip dance of `normalize_album_name` collapses
to: truncate at the first `'('` or `'['`, then strip. -/
theorem normalize_album_name_eq (s : String) :
    normalize_album_name s = pyStrip (cutBrackets s) := by
  refine congrArg String.mk ?_
  show stripL ((stripL ((stripL s.data).takeWhile
      (fun c => decide (c ≠ '(')))).takeWhile (fun c => decide (c ≠ '['))) =
    stripL (s.data.takeWhile noBracket)
  rw [stripL_takeWhile_stripL ws_imp_ne_bracket]
  rw [List.takeWhile_takeWhile]
  have hpred : (fun a => decide ((fun c => decide (c ≠ '[')) a = true ∧
      (fun c => decide (c ≠ '(')) a = true)) = noBracket := by
    funext a
    by_cases h1 : a = '(' <;> by_cases h2 : a = '[' <;>
      simp [noBracket, h1, h2]
  rw [hpred]
  exact stripL_takeWhile_stripL ws_imp_noBracket s.data

/-! ## `Char.toLower` commutes with stripping and truncation -/

lemma stripL_map_toLower (l : List Char) :
    stripL (l.map Char.toLower) = (stripL l).map Char.toLower := by
  unfold stripL dropLead dropTrail
  have hpf : (isPySpace ∘ Char.toLower) = isPySpace := funext isPySpace_toLower
  rw [List.dropWhile_map, hpf, ← List.map_reverse, List.dropWhile_map, hpf,
    ← List.map_reverse]

lemma takeWhile_noBracket_map_toLower (l : List Char) :
    (l.map Char.toLower).takeWhile noBracket = (l.takeWhile noBracket).map Char.toLower := by
  rw [List.takeWhile_map]
  have hpf : (noBracket ∘ Char.toLower) = noBracket := by
    funext c
    show noBracket (Char.toLower c) = noBracket c
    have h1 : Char.toLower c = '(' ↔ c = '(' :=
      toLower_eq_iff (Or.inl (by decide)) c
    have h2 : Char.toLower c = '[' ↔ c = '[' :=
      toLower_eq_iff (Or.inr (Or.inl (by constructor <;> decide))) c
    unfold noBracket
    rw [decide_eq_decide.mpr (not_congr h1), decide_eq_decide.mpr (not_congr h2)]
  rw [hpf]

/-- The specification's normalization: trim, truncate at the first `'('` or
`'['`, trim the residue left by truncation (the spec's own example
`"X (Deluxe)" ↦ "X"` requires this), and lower-case. -/
def specNormalize (s : String) : String :=
  pyLower (pyStrip (cutBrackets (pyStrip s)))

/-- The spec's normalization agrees with the code's
`normalize_album_name(x.lower())` composite. -/
theorem specNormalize_eq (x : String) :
    specNormalize x = normalize_album_name (pyLower x) := by
  rw [normalize_album_name_eq]
  refine congrArg String.mk ?_
  show (stripL ((stripL x.data).takeWhile noBracket)).map Char.toLower =
    stripL ((x.data.map Char.toLower).takeWhile noBracket)
  rw [takeWhile_noBracket_map_toLower, stripL_map_toLower]
  exact congrArg (List.map Char.toLower)
    (stripL_takeWhile_stripL ws_imp_noBracket x.data)

/-! ## Substring and whitespace-split facts -/

lemma substrL_iff_infix {n h : List Char} : substrL n h = true ↔ n <:+: h := by
  unfold substrL
  rw [List.any_eq_true]
  constructor
  · rintro ⟨t, ht, hp⟩
    exact List.infix_iff_prefix_suffix.mpr
      ⟨t, List.isPrefixOf_iff_prefix.mp hp, (List.mem_tails _ _).mp ht⟩
  · intro hinf
    obtain ⟨t, hp, hs⟩ := List.infix_iff_prefix_suffix.mp hinf
    exact ⟨t, (List.mem_tails _ _).mpr hs, List.isPrefixOf_iff_prefix.mpr hp⟩

lemma substrB_nil_left (s : String) : substrB "" s = true := by
  unfold substrB
  exact substrL_iff_infix.mpr List.nil_infix

lemma ne_empty_of_not_substrB {a b : String} (h : substrB a b ≠ true) : a ≠ "" := by
  intro ha
  subst ha
  exact h (substrB_nil_left b)

lemma dropWhile_head_false {pp : Char → Bool} {c : Char} {t : List Char} :
    ∀ l : List Char, l.dropWhile pp = c :: t → pp c = false := by
  intro l
  induction l with
  | nil => intro h; cases h
  | cons a l ih =>
    intro h
    rw [List.dropWhile_cons] at h
    by_cases ha : pp a = true
    · rw [if_pos ha] at h
      exact ih h
    · rw [if_neg ha] at h
      cases h
      exact Bool.not_eq_true _ ▸ Bool.of_not_eq_true ha

lemma stripL_head_not_ws {l : List Char} {c : Char} {t : List Char}
    (h : stripL l = c :: t) : isPySpace c = false := by
  have hpre : dropTrail (dropLead l) <+: dropLead l := by
    have hs : (dropLead l).reverse.dropWhile isPySpace <:+ (dropLead l).reverse :=
      List.dropWhile_suffix isPySpace
    have := List.reverse_prefix.mpr hs
    rwa [List.reverse_reverse] at this
  unfold stripL at h
  rw [h] at hpre
  obtain ⟨r, hr⟩ := hpre
  have : dropLead l = c :: (t ++ r) := by rw [← hr]; rfl
  exact dropWhile_head_false l this

lemma wsSplitAux_ne_nil {l acc : List Char} (hacc : acc ≠ []) :
    wsSplitAux l acc ≠ [] := by
  induction l generalizing acc with
  | nil =>
    unfold wsSplitAux
    rw [if_neg hacc]
    exact List.cons_ne_nil _ _
  | cons c rest ih =>
    unfold wsSplitAux
    by_cases hc : isPySpace c = true
    · rw [if_pos hc, if_neg hacc]
      exact List.cons_ne_nil _ _
    · rw [if_neg hc]
      exact ih (List.cons_ne_nil _ _)

/-- A non-empty stripped string splits into at least one whitespace token. -/
lemma wsSplit_stripL_ne_nil {u : List Char} (h : stripL u ≠ []) :
    wsSplitAux (stripL u) [] ≠ [] := by
  obtain ⟨c, t, hct⟩ : ∃ c t, stripL u = c :: t := by
    cases hcase : stripL u with
    | nil => exact absurd hcase h
    | cons c t => exact ⟨c, t, rfl⟩
  have hws : isPySpace c = false := stripL_head_not_ws hct
  rw [hct]
  unfold wsSplitAux
  rw [if_neg (by rw [hws]; exact Bool.false_ne_true)]
  exact wsSplitAux_ne_nil (List.cons_ne_nil _ _)

/-- `normalize_album_name` always returns a stripped string, so when it is
non-empty its whitespace split is non-empty too. -/
lemma wsSplit_normalize_ne_nil {s : String} (h : normalize_album_name s ≠ "") :
    (wsSplit (normalize_album_name s)).dedup ≠ [] := by
  rw [normalize_album_name_eq] at h ⊢
  have hdata : (pyStrip (cutBrackets s)).data = stripL (cutBrackets s).data := rfl
  have hne : stripL (cutBrackets s).data ≠ [] := by
    intro hnil
    apply h
    have : (pyStrip (cutBrackets s)).data = [] := by rw [hdata, hnil]
    cases hps : pyStrip (cutBrackets s) with
    | mk d => cases hps ▸ this; rfl
  have hsplit : wsSplitAux (stripL (cutBrackets s).data) [] ≠ [] :=
    wsSplit_stripL_ne_nil hne
  unfold wsSplit
  rw [hdata]
  intro hd
  rw [List.dedup_eq_nil, List.map_eq_nil_iff] at hd
  exact hsplit hd

/-! ## The specification-side matcher -/

/-- The Album Name Matcher contract exactly as the specification words it
(for a non-empty expected name): normalize both strings with
`specNormalize`; exact normalized equality gives `exact`; substring
containment in either direction gives `partial`; a whitespace-token overlap
ratio of at least one half gives `word_overlap`; otherwise no match.  The
specification states no emptiness guard before the overlap test.  This
definition follows the spec's words and is compared against the source-side
`album_names_match`. -/
def matchSpec (candidate expected : String) : Bool × String :=
  let en := specNormalize expected
  let cn := specNormalize candidate
  if en = cn then (true, "exact")
  else if substrB en cn || substrB cn en then (true, "partial")
  else if overlapAtLeastHalf (wsSplit en).dedup (wsSplit cn).dedup then
    (true, "word_overlap")
  else (false, "no_match")

/-- Claim C5 (confirmed): for every pair with non-empty expected album name,
`AlbumMatcher.album_names_match` computes exactly the cascade the
specification describes (normalize by trim/truncate-at-bracket/lower-case;
then exact equality, two-sided substring containment, whitespace-token
overlap ratio at least `0.5`, else no match — the source's extra emptiness
guard before the overlap test is redundant); containment matching is
symmetric in the two arguments whenever both are non-empty (the confidence
tags `exact/partial/word_overlap/no_match` are the code-level spellings of
the spec vocabulary `exact/partial/word-overlap/none`); and
`normalize_album_name "X (Deluxe)" = "X"`.  Determinism is immediate: the
embedding is a pure function of its two arguments. -/
theorem c5_album_matcher_spec :
    (∀ cand expd : String, expd ≠ "" →
        album_names_match cand expd = matchSpec cand expd)
    ∧ (∀ cand expd : String, cand ≠ "" → expd ≠ "" →
        album_names_match cand expd = (true, "partial") →
        album_names_match expd cand = (true, "partial"))
    ∧ normalize_album_name "X (Deluxe)" = "X" := by
  have part1 : ∀ cand expd : String, expd ≠ "" →
      album_names_match cand expd = matchSpec cand expd := by
    intro cand expd he
    simp only [album_names_match, matchSpec, specNormalize_eq]
    rw [if_neg he]
    by_cases h1 : normalize_album_name (pyLower expd) =
        normalize_album_name (pyLower cand)
    · rw [if_pos h1, if_pos h1]
    · rw [if_neg h1, if_neg h1]
      by_cases h2 : (substrB (normalize_album_name (pyLower expd))
            (normalize_album_name (pyLower cand)) ||
          substrB (normalize_album_name (pyLower cand))
            (normalize_album_name (pyLower expd))) = true
      · rw [if_pos h2, if_pos h2]
      · rw [if_neg h2, if_neg h2]
        have h2' := h2
        rw [Bool.or_eq_true] at h2'
        push_neg at h2'
        have hen : normalize_album_name (pyLower expd) ≠ "" :=
          ne_empty_of_not_substrB h2'.1
        have hrn : normalize_album_name (pyLower cand) ≠ "" :=
          ne_empty_of_not_substrB h2'.2
        rw [if_pos ⟨wsSplit_normalize_ne_nil hen, wsSplit_normalize_ne_nil hrn⟩]
  refine ⟨part1, ?_, by decide⟩
  intro cand expd hc he hpart
  rw [part1 cand expd he] at hpart
  rw [part1 expd cand hc]
  simp only [matchSpec] at hpart ⊢
  by_cases heq : specNormalize expd = specNormalize cand
  · rw [if_pos heq] at hpart
    exact absurd hpart (by decide)
  · rw [if_neg heq] at hpart
    by_cases hsub : (substrB (specNormalize expd) (specNormalize cand) ||
        substrB (specNormalize cand) (specNormalize expd)) = true
    · rw [if_neg (fun hh => heq hh.symm), if_pos (by rwa [Bool.or_comm] at hsub)]
    · rw [if_neg hsub] at hpart
      by_cases hov : overlapAtLeastHalf (wsSplit (specNormalize expd)).dedup
          (wsSplit (specNormalize cand)).dedup
      · rw [if_pos hov] at hpart
        exact absurd hpart (by decide)
      · rw [if_neg hov] at hpart
        exact absurd hpart (by decide)

/-- Witness for C5 at a concrete input. -/
theorem c5_album_matcher_spec_witness :
    ("x" : String) ≠ "" ∧ album_names_match "xy" "x" = matchSpec "xy" "x" :=
  ⟨by decide, c5_album_matcher_spec.1 "xy" "x" (by decide)⟩

/-- Counterexample to claim C10 as stated: the expected name `"(a)"` is
non-empty and the candidate `"(Live)"` has empty normalized form, yet
`album_names_match` returns `(true, "exact")`, not `(true, "partial")`:
the expected name itself also normalizes to the empty string, so the
equality branch fires first. -/
theorem c10_counterexample :
    ("(a)" : String) ≠ "" ∧ normalize_album_name (pyLower "(Live)") = "" ∧
      album_names_match "(Live)" "(a)" ≠ (true, "partial") ∧
      album_names_match "(Live)" "(a)" = (true, "exact") := by
  refine ⟨by decide, by decide, by decide, by decide⟩

/-- Claim C10 (corrected): for a non-empty expected album name whose own
normalized form is non-empty, every candidate whose normalized form is empty
yields `(true, "partial")` — the empty normalized candidate is a substring
of every string.  (When the expected name also normalizes to the empty
string, the earlier equality branch returns `(true, "exact")` instead.) -/
theorem c10_empty_candidate_partial (cand expd : String) (he : expd ≠ "")
    (hcand : normalize_album_name (pyLower cand) = "")
    (hexp : normalize_album_name (pyLower expd) ≠ "") :
    album_names_match cand expd = (true, "partial") := by
  simp only [album_names_match]
  rw [if_neg he]
  have h1 : ¬ (normalize_album_name (pyLower expd) =
      normalize_album_name (pyLower cand)) := by
    rw [hcand]
    exact hexp
  rw [if_neg h1]
  have h2 : substrB (normalize_album_name (pyLower cand))
      (normalize_album_name (pyLower expd)) = true := by
    rw [hcand]
    exact substrB_nil_left _
  rw [if_pos (by rw [Bool.or_eq_true]; exact Or.inr h2)]

/-- Witness for the amended C10 at a concrete input. -/
theorem c10_empty_candidate_partial_witness :
    album_names_match "(Live)" "X" = (true, "partial") :=
  c10_empty_candidate_partial "(Live)" "X" (by decide) (by decide) (by decide)

/-! ## `CoverResult` (album_cover_retriever.py, lines 65-76)

Image bytes are modelled as `List Nat`, release-info dictionaries as
association lists from keys to optional values (a value `none` models a
Python `None` entry). -/

structure CoverResult where
  success : Bool
  cover_url : Option String := none
  cover_data : Option (List Nat) := none
  release_info : Option (List (String × Option String)) := none
  error : Option String := none
  source : Option String := none
  album_match_confidence : String := "unknown"
deriving DecidableEq

/-! ## `AlbumCoverCache` (pipeline.py, lines 29-48) -/

/-- The cache key: `f"{artist}|{album}".lower().strip()` — lower-case and
strip are applied to the joined string, not to the two fields separately. -/
def normKey (artist album : String) : String :=
  pyStrip (pyLower (artist ++ "|" ++ album))

/-- The cache's backing dict, most recent assignment first. -/
def AlbumCoverCache := List (String × CoverResult)

/-- `AlbumCoverCache.get_cover`. -/
def get_cover (cache : AlbumCoverCache) (artist album : String) : Option CoverResult :=
  List.lookup (normKey artist album) cache

/-- `AlbumCoverCache.set_cover`: a dict assignment; later lookups see the
newest binding for the key. -/
def set_cover (cache : AlbumCoverCache) (artist album : String)
    (cover_result : CoverResult) : AlbumCoverCache :=
  (normKey artist album, cover_result) :: cache

/-- Counterexample to claim C2 as stated: artist `" A "` and `"a"` are
trim/case-equivalent field-wise, yet after `set_cover " A " "b" r` the
lookup `get_cover "a" "b"` misses: the code trims the *joined* string
`" A |b"`, leaving the interior space before the separator in the key. -/
theorem c2_counterexample :
    pyLower (pyStrip " A ") = pyLower (pyStrip "a") ∧
      pyLower (pyStrip " B ") = pyLower (pyStrip "b") ∧
      get_cover (set_cover [] " A " " B " { success := true }) "a" "b" = none := by
  refine ⟨by decide, by decide, by decide⟩

/-- Claim C2 (corrected): the cache key is `lower` then `trim` applied to
the joined string `artist ++ "|" ++ album`; `set_cover` followed by
`get_cover` returns the stored result exactly when the two joined strings
agree after lower-casing and trimming (so leading whitespace of the artist
and trailing whitespace of the album are ignored, but whitespace adjacent
to the separator is significant). -/
theorem c2_cache_key_joined (cache : AlbumCoverCache)
    (artist album artist2 album2 : String) (r : CoverResult)
    (h : pyStrip (pyLower (artist ++ "|" ++ album)) =
      pyStrip (pyLower (artist2 ++ "|" ++ album2))) :
    get_cover (set_cover cache artist album r) artist2 album2 = some r := by
  unfold get_cover set_cover normKey
  rw [← h]
  simp [List.lookup]

/-- Witness for the corrected C2: leading artist whitespace and case both
wash out of the joined key. -/
theorem c2_cache_key_joined_witness :
    get_cover (set_cover [] " A" "b " { success := true }) "a" "b" =
      some { success := true } :=
  c2_cache_key_joined [] " A" "b " "a" "b" { success := true } (by decide)

/-! ## `_download_cover_data` (album_cover_retriever.py, lines 206-239)

The call `requests.get(url, timeout=COVER_REQUEST_TIMEOUT, stream=True)` is
modelled as an oracle producing a `GetOutcome`: either a response (status,
`content-type` header, parsed `content-length` header, body chunks from
`iter_content`), or one of the exception classes the code distinguishes. -/

/-- Constant from config.py: 10 MiB limit for cover images. -/
def MAX_COVER_FILE_SIZE : Nat := 10 * 1024 * 1024

structure HttpResp where
  status : Nat
  contentType : Option String := none
  contentLength : Option Nat := none
  chunks : List (List Nat) := []
deriving DecidableEq

inductive GetOutcome where
  | response (r : HttpResp)
  | timeout
  | connError
  | otherExc
deriving DecidableEq

/-- `response.headers.get('content-type', '').lower().startswith('image/')`. -/
def contentTypeOk (ct : Option String) : Bool :=
  List.isPrefixOf "image/".data (pyLower (ct.getD "")).data

/-- The streaming loop: skip empty chunks, accumulate, abort with `None`
once the accumulated size exceeds `MAX_COVER_FILE_SIZE`. -/
def streamChunks : List (List Nat) → List Nat → Option (List Nat)
  | [], acc => some acc
  | c :: rest, acc =>
    if c = [] then streamChunks rest acc
    else
      let acc2 := acc ++ c
      if acc2.length > MAX_COVER_FILE_SIZE then none else streamChunks rest acc2

/-- `content_length and int(content_length) > MAX_COVER_FILE_SIZE`. -/
def declaredTooLarge (cl : Option Nat) : Bool :=
  match cl with
  | some n => n > MAX_COVER_FILE_SIZE
  | none => false

/-- `AlbumCoverRetriever._download_cover_data`.  `Except.error` models an
exception propagating out of the helper (`raise` of a non-404 `HTTPError`);
`Except.ok none` models `return None`.  `requests`' `raise_for_status`
raises exactly for client errors (4xx) and server errors (5xx), i.e. for
`400 ≤ status < 600`; any other status — 1xx, 2xx, 3xx and nonstandard
codes `≥ 600` — passes through. -/
def download_cover_data (r : GetOutcome) : Except String (Option (List Nat)) :=
  match r with
  | .timeout => .ok none
  | .connError => .ok none
  | .otherExc => .ok none
  | .response resp =>
    if 400 ≤ resp.status ∧ resp.status < 600 then
      if resp.status = 404 then .ok none
      else .error ("HTTPError " ++ Nat.repr resp.status)
    else if ¬ contentTypeOk resp.contentType then .ok none
    else if declaredTooLarge resp.contentLength then .ok none
    else .ok (streamChunks resp.chunks [])

lemma streamChunks_le {chunks : List (List Nat)} :
    ∀ {acc b : List Nat}, acc.length ≤ MAX_COVER_FILE_SIZE →
      streamChunks chunks acc = some b → b.length ≤ MAX_COVER_FILE_SIZE := by
  induction chunks with
  | nil =>
    intro acc b hacc h
    unfold streamChunks at h
    cases h
    exact hacc
  | cons c rest ih =>
    intro acc b hacc h
    unfold streamChunks at h
    by_cases hc : c = []
    · rw [if_pos hc] at h
      exact ih hacc h
    · rw [if_neg hc] at h
      by_cases hlen : (acc ++ c).length > MAX_COVER_FILE_SIZE
      · rw [if_pos hlen] at h
        cases h
      · rw [if_neg hlen] at h
        exact ih (by omega) h

/-- The HTTP success class (2xx), as the specification's "success status". -/
def isSuccessStatus (s : Nat) : Prop := 200 ≤ s ∧ s < 300

/-- Counterexample to claim C6 as stated: a `300` response (and likewise a
nonstandard `999` response) with an image content type and a small body is
not a success status, yet the helper returns its bytes —
`raise_for_status` only rejects statuses in `400..599`. -/
theorem c6_counterexample :
    (download_cover_data (.response ⟨300, some "image/png", none, [[1, 2, 3]]⟩) =
        .ok (some [1, 2, 3]) ∧
      ¬ isSuccessStatus 300) ∧
    (download_cover_data (.response ⟨999, some "image/png", none, [[1]]⟩) =
        .ok (some [1]) ∧
      ¬ isSuccessStatus 999) := by
  refine ⟨⟨rfl, ?_⟩, ⟨rfl, ?_⟩⟩
  · intro h
    exact absurd h.2 (by decide)
  · intro h
    exact absurd h.2 (by decide)

/-- Claim C6 (corrected): the download helper returns image bytes only when
the bounded-time GET produced a response whose status passes
`raise_for_status` — any status outside the error range `400..599`, so not
only 2xx "success" statuses but also 1xx, 3xx and nonstandard codes
`≥ 600` — whose `content-type` is present and an image type, whose
declared content length (if any) does not exceed 10 MiB, and whose
streamed body never accumulates more than 10 MiB (the bytes returned are
exactly the accumulated chunks); a 404 response, a network timeout, or a
connection failure yields `None` (no bytes, no exception); any other HTTP
error status (in `400..599`) propagates as an exception. -/
theorem c6_download_validation :
    (∀ r b, download_cover_data r = .ok (some b) →
      ∃ resp, r = .response resp ∧ ¬ (400 ≤ resp.status ∧ resp.status < 600) ∧
        contentTypeOk resp.contentType = true ∧
        (∀ n, resp.contentLength = some n → n ≤ MAX_COVER_FILE_SIZE) ∧
        b.length ≤ MAX_COVER_FILE_SIZE ∧ streamChunks resp.chunks [] = some b)
    ∧ download_cover_data .timeout = .ok none
    ∧ download_cover_data .connError = .ok none
    ∧ (∀ resp : HttpResp, resp.status = 404 →
        download_cover_data (.response resp) = .ok none)
    ∧ (∀ resp : HttpResp, 400 ≤ resp.status → resp.status < 600 →
        resp.status ≠ 404 →
        download_cover_data (.response resp) =
          .error ("HTTPError " ++ Nat.repr resp.status)) := by
  refine ⟨?_, rfl, rfl, ?_, ?_⟩
  · intro r b h
    match r with
    | .timeout => cases h
    | .connError => cases h
    | .otherExc => cases h
    | .response resp =>
      refine ⟨resp, rfl, ?_⟩
      simp only [download_cover_data] at h
      by_cases h4 : 400 ≤ resp.status ∧ resp.status < 600
      · rw [if_pos h4] at h
        by_cases h404 : resp.status = 404
        · rw [if_pos h404] at h
          cases h
        · rw [if_neg h404] at h
          cases h
      · rw [if_neg h4] at h
        refine ⟨h4, ?_⟩
        by_cases hct : contentTypeOk resp.contentType = true
        · rw [if_neg (not_not_intro hct)] at h
          refine ⟨hct, ?_⟩
          by_cases hd : declaredTooLarge resp.contentLength = true
          · rw [if_pos hd] at h
            cases h
          · rw [if_neg hd] at h
            injection h with h2
            refine ⟨?_, streamChunks_le (Nat.zero_le _) h2, h2⟩
            intro m hm
            unfold declaredTooLarge at hd
            rw [hm] at hd
            simp only [decide_eq_true_eq] at hd
            omega
        · rw [if_pos hct] at h
          cases h
  · intro resp h404
    simp only [download_cover_data]
    rw [if_pos (show 400 ≤ resp.status ∧ resp.status < 600 by omega), if_pos h404]
  · intro resp h4a h4b h404
    simp only [download_cover_data]
    rw [if_pos ⟨h4a, h4b⟩, if_neg h404]

/-- Witness for the corrected C6: a 500 response propagates as an exception. -/
theorem c6_download_validation_witness :
    download_cover_data (.response ⟨500, some "image/png", none, [[1]]⟩) =
      .error ("HTTPError " ++ Nat.repr 500) :=
  c6_download_validation.2.2.2.2 ⟨500, some "image/png", none, [[1]]⟩
    (by decide) (by decide) (by decide)

/-! ## `AlbumCoverRetriever.retrieve_cover` (album_cover_retriever.py, 85-205)

`TrackMetadata` (extractor.py, lines 15-31) restricted to the fields this
development reads.  The two catalog adapters and the HTTP layer are oracle
functions in `RetrieverEnv`; the adapters' own `retrieve_cover` entry points
wrap their bodies in `try/except` returning a failure `CoverResult`, so they
are total functions.  `retrieve_cover` returns the list of catalog-adapter
invocations it performed alongside its result; `Except.error` models an
exception escaping to the caller. -/

structure TrackMetadata where
  title : String := ""
  artist : String
  album : Option String := none
  source_url : Option String := none
  selected : Bool := true
  youtube_album_cover_url : Option String := none
deriving DecidableEq

inductive AdapterCall where
  | musicbrainzAlbum
  | itunesAlbum
  | musicbrainzRecording
  | itunesTrack
deriving DecidableEq

structure RetrieverEnv where
  http : String → GetOutcome
  mbAlbum : TrackMetadata → CoverResult
  mbRecording : TrackMetadata → CoverResult
  itAlbum : TrackMetadata → CoverResult
  itTrack : TrackMetadata → CoverResult

/-- Lines 146-150: the terminal failure of the album cascade. -/
def noAlbumCoverFound : CoverResult :=
  { success := false, error := some "No album cover found from MusicBrainz or iTunes",
    album_match_confidence := "none" }

/-- Lines 152-157: the `except` clause of `retrieve_cover`'s main `try`. -/
def unexpectedMainError (e : String) : CoverResult :=
  { success := false, error := some ("Unexpected error during cover retrieval: " ++ e),
    album_match_confidence := "error" }

/-- Lines 130-143: the iTunes fallback inside `retrieve_cover`'s `try`.  The
accumulated call log is threaded through. -/
def retrieveFallbackItunes (env : RetrieverEnv) (m : TrackMetadata)
    (calls : List AdapterCall) : CoverResult × List AdapterCall :=
  let itunes_result := env.itAlbum m
  let calls := calls ++ [.itunesAlbum]
  match itunes_result.success, itunes_result.cover_url with
  | true, some url =>
    if url ≠ "" then
      match download_cover_data (env.http url) with
      | .error e => (unexpectedMainError e, calls)
      | .ok (some d) =>
        if d ≠ [] then
          ({ success := true, cover_url := some url, cover_data := some d,
             release_info := itunes_result.release_info, source := some "itunes",
             album_match_confidence := itunes_result.album_match_confidence }, calls)
        else (noAlbumCoverFound, calls)
      | .ok none => (noAlbumCoverFound, calls)
    else (noAlbumCoverFound, calls)
  | _, _ => (noAlbumCoverFound, calls)

/-- Lines 114-157: the `try` block of `retrieve_cover` for the
artist-and-album case (MusicBrainz primary, iTunes fallback).  Every
exception inside the block — only `_download_cover_data` can raise — is
converted by the `except` clause into `unexpectedMainError`. -/
def retrieveMainCascade (env : RetrieverEnv) (m : TrackMetadata) :
    CoverResult × List AdapterCall :=
  let mb_result := env.mbAlbum m
  let calls := [AdapterCall.musicbrainzAlbum]
  match mb_result.success, mb_result.cover_url with
  | true, some url =>
    if url ≠ "" then
      match download_cover_data (env.http url) with
      | .error e => (unexpectedMainError e, calls)
      | .ok (some d) =>
        if d ≠ [] then
          ({ success := true, cover_url := some url, cover_data := some d,
             release_info := mb_result.release_info, source := some "musicbrainz",
             album_match_confidence := mb_result.album_match_confidence }, calls)
        else retrieveFallbackItunes env m calls
      | .ok none => retrieveFallbackItunes env m calls
    else retrieveFallbackItunes env m calls
  | _, _ => retrieveFallbackItunes env m calls

/-- Lines 195-199 / 200-205: failure results of the track-only path. -/
def noTrackCoverFound : CoverResult :=
  { success := false, error := some "No cover found for track-only search",
    album_match_confidence := "none" }

def unexpectedTrackError (e : String) : CoverResult :=
  { success := false,
    error := some ("Unexpected error during track-only cover retrieval: " ++ e),
    album_match_confidence := "error" }

/-- Lines 182-193: the iTunes track fallback of the track-only path. -/
def retrieveTrackItunes (env : RetrieverEnv) (m : TrackMetadata)
    (calls : List AdapterCall) : CoverResult × List AdapterCall :=
  let itunes_result := env.itTrack m
  let calls := calls ++ [.itunesTrack]
  match itunes_result.success, itunes_result.cover_url with
  | true, some url =>
    if url ≠ "" then
      match download_cover_data (env.http url) with
      | .error e => (unexpectedTrackError e, calls)
      | .ok (some d) =>
        if d ≠ [] then
          ({ success := true, cover_url := some url, cover_data := some d,
             release_info := itunes_result.release_info, source := some "itunes",
             album_match_confidence := itunes_result.album_match_confidence }, calls)
        else (noTrackCoverFound, calls)
      | .ok none => (noTrackCoverFound, calls)
    else (noTrackCoverFound, calls)
  | _, _ => (noTrackCoverFound, calls)

/-- `AlbumCoverRetriever._retrieve_cover_without_album` (lines 159-205). -/
def retrieve_cover_without_album (env : RetrieverEnv) (m : TrackMetadata) :
    CoverResult × List AdapterCall :=
  if m.title = "" then
    ({ success := false, error := some "No track title provided",
       album_match_confidence := "none" }, [])
  else
    let mb_result := env.mbRecording m
    let calls := [AdapterCall.musicbrainzRecording]
    match mb_result.success, mb_result.cover_url with
    | true, some url =>
      if url ≠ "" then
        match download_cover_data (env.http url) with
        | .error e => (unexpectedTrackError e, calls)
        | .ok (some d) =>
          if d ≠ [] then
            ({ success := true, cover_url := some url, cover_data := some d,
               release_info := mb_result.release_info, source := some "musicbrainz",
               album_match_confidence := mb_result.album_match_confidence }, calls)
          else retrieveTrackItunes env m calls
        | .ok none => retrieveTrackItunes env m calls
      else retrieveTrackItunes env m calls
    | _, _ => retrieveTrackItunes env m calls

/-- Lines 104-157 without Strategy 0: artist guard, album guard, then the
cascades.  Each branch sits inside a `try/except` (or can raise nothing), so
the result is always `Except.ok`. -/
def retrieveRest (env : RetrieverEnv) (m : TrackMetadata) :
    Except String CoverResult × List AdapterCall :=
  if m.artist = "" then
    (.ok { success := false, error := some "No artist name provided",
           album_match_confidence := "none" }, [])
  else if optStrTruthy m.album = false then
    let rc := retrieve_cover_without_album env m
    (.ok rc.1, rc.2)
  else
    let rc := retrieveMainCascade env m
    (.ok rc.1, rc.2)

/-- `AlbumCoverRetriever.retrieve_cover` (lines 85-157).  Strategy 0 (the
platform-supplied "authoritative" cover URL, source tag `"youtube"`) is
located *before* the `try` statement in the source, so an exception raised
while downloading that URL leaves the method.  The `if cover_data:` checks
of the source treat an empty downloaded body (`b''`) as falsy, falling
through to the next strategy, hence the `d ≠ []` guards here and in the
cascade helpers above. -/
def retrieve_cover (env : RetrieverEnv) (m : TrackMetadata) :
    Except String CoverResult × List AdapterCall :=
  match m.youtube_album_cover_url with
  | some u =>
    if u ≠ "" then
      match download_cover_data (env.http u) with
      | .error e => (.error e, [])
      | .ok (some d) =>
        if d ≠ [] then
          (.ok { success := true, cover_url := some u, cover_data := some d,
                 source := some "youtube", album_match_confidence := "exact" }, [])
        else retrieveRest env m
      | .ok none => retrieveRest env m
    else retrieveRest env m
  | none => retrieveRest env m

/-- An environment whose authoritative-hint download raises a non-404
`HTTPError` (a 500 response), with inert catalog adapters. -/
def c3Env : RetrieverEnv :=
  { http := fun _ => .response ⟨500, none, none, []⟩,
    mbAlbum := fun _ => { success := false },
    mbRecording := fun _ => { success := false },
    itAlbum := fun _ => { success := false },
    itTrack := fun _ => { success := false } }

/-- Counterexample to claim C3 as stated: with an authoritative cover URL
whose download raises a non-404 HTTP error, `retrieve_cover` lets the
exception propagate — Strategy 0 sits before the `try` block. -/
theorem c3_counterexample :
    (retrieve_cover c3Env
        { title := "t", artist := "a", album := some "b",
          youtube_album_cover_url := some "u" }).1 =
      .error ("HTTPError " ++ Nat.repr 500) ∧
    ∀ r, (retrieve_cover c3Env
        { title := "t", artist := "a", album := some "b",
          youtube_album_cover_url := some "u" }).1 ≠ .ok r := by
  constructor
  · rfl
  · intro r h
    cases h

/-- Claim C3 (corrected): `retrieve_cover` never lets an exception escape
*except* through the authoritative-hint download of Strategy 0, which is
the one operation located before the `try` block: whenever the metadata
carries no truthy authoritative cover URL, or that URL's download does not
raise, the method returns normally (any exception in the catalog phases is
caught and converted to a `success = false` result with confidence
`"error"`). -/
theorem c3_no_escape_except_hint (env : RetrieverEnv) (m : TrackMetadata)
    (h : ∀ u, m.youtube_album_cover_url = some u → u ≠ "" →
      ∀ e, download_cover_data (env.http u) ≠ .error e) :
    ∃ r, (retrieve_cover env m).1 = Except.ok r := by
  have hrest : ∃ r, (retrieveRest env m).1 = Except.ok r := by
    unfold retrieveRest
    by_cases ha : m.artist = ""
    · rw [if_pos ha]
      exact ⟨_, rfl⟩
    · rw [if_neg ha]
      by_cases hb : optStrTruthy m.album = false
      · rw [if_pos hb]
        exact ⟨_, rfl⟩
      · rw [if_neg hb]
        exact ⟨_, rfl⟩
  cases hyt : m.youtube_album_cover_url with
  | none =>
    simp only [retrieve_cover, hyt]
    exact hrest
  | some u =>
    simp only [retrieve_cover, hyt]
    by_cases hu : u = ""
    · rw [if_neg (not_not_intro hu)]
      exact hrest
    · rw [if_pos hu]
      cases hdl : download_cover_data (env.http u) with
      | error e => exact absurd hdl (h u hyt hu e)
      | ok d =>
        cases d with
        | none => exact hrest
        | some bytes =>
          cases bytes with
          | nil => exact hrest
          | cons c1 cs => exact ⟨_, rfl⟩

/-- Witness for the corrected C3 at a concrete metadata without hint. -/
theorem c3_no_escape_except_hint_witness :
    ∃ r, (retrieve_cover c3Env { title := "t", artist := "a" }).1 = Except.ok r :=
  c3_no_escape_except_hint c3Env { title := "t", artist := "a" }
    (fun u hu => by cases hu)

/-- Claim C4 (confirmed): a truthy authoritative (platform-supplied) cover
URL whose download succeeds and validates short-circuits the whole cascade:
the result is `success = true`, source `"youtube"` (the code's tag for the
spec's `authoritative-hint`), confidence `"exact"`, and the adapter-call
log is empty — neither MusicBrainz nor iTunes is consulted.  Per the
code's own `if cover_data:` truthiness, a download "succeeds and
validates" when it yields non-empty bytes (`d ≠ []`): an empty body is
treated like no image and falls through to the catalog cascade. -/
theorem c4_authoritative_hint (env : RetrieverEnv) (m : TrackMetadata)
    (u : String) (d : List Nat) (hu : m.youtube_album_cover_url = some u)
    (hne : u ≠ "") (hd : download_cover_data (env.http u) = .ok (some d))
    (hdne : d ≠ []) :
    retrieve_cover env m =
      (.ok { success := true, cover_url := some u, cover_data := some d,
             source := some "youtube", album_match_confidence := "exact" }, []) := by
  simp only [retrieve_cover, hu, hd]
  rw [if_pos hne, if_pos hdne]

/-- Witness for C4: a concrete 200 image response. -/
theorem c4_authoritative_hint_witness :
    retrieve_cover
        { c3Env with http := fun _ => .response ⟨200, some "image/jpeg", some 2, [[7, 8]]⟩ }
        { title := "t", artist := "a", youtube_album_cover_url := some "u" } =
      (.ok { success := true, cover_url := some "u", cover_data := some [7, 8],
             source := some "youtube", album_match_confidence := "exact" }, []) :=
  c4_authoritative_hint _ _ "u" [7, 8] rfl (by decide) (by rfl) (by decide)


/-! ## Catalog adapters (album_cover_retriever.py, lines 242-581)

The adapters' HTTP+JSON boundaries are oracles returning already-parsed
payloads; a payload item carries exactly the keys the code reads (the code
would convert a missing mandatory key into the adapter's catch-all failure
result, which likewise carries no image bytes).  `_search_releases`,
`_search_albums` and `_search_tracks` swallow every exception and return an
empty list, so they are total oracles. -/

/-- Constants from config.py. -/
def DEFAULT_SEARCH_LIMIT : Nat := 5
def EXTENDED_SEARCH_LIMIT : Nat := 10
def ARTIST_ALBUMS_SEARCH_LIMIT : Nat := 20

/-- Python truthiness of the `album` field and its string value. -/
def albumTruthy (m : TrackMetadata) : Bool := optStrTruthy m.album
def albumStr (m : TrackMetadata) : String := m.album.getD ""

/-- A release dict from the MusicBrainz release search (keys `title`, `id`). -/
structure MBRelease where
  title : String
  id : String
deriving DecidableEq

/-- An image entry of a Cover Art Archive response. -/
structure CAImage where
  front : Bool
  image : String
deriving DecidableEq

/-- Outcome of the Cover Art Archive lookup `GET /release/{id}`:
404, a parsed `images` list, or any exception (all swallowed). -/
inductive CAOutcome where
  | notFound
  | ok (images : List CAImage)
  | exc
deriving DecidableEq

/-- First release of a recording: `id` present or not, `title` defaulted. -/
structure RelRef where
  id? : Option String
  title : String := ""
deriving DecidableEq

/-- A recording entry: `none` when the `releases` key is missing (the code
substitutes `[{}]` whose first element is falsy), otherwise the parsed
release list (an empty list makes `[0]` raise `IndexError`). -/
abbrev MBRecording := Option (List RelRef)

structure MBEnv where
  searchReleases : String → String → Nat → List MBRelease
  coverArt : String → CAOutcome
  recordings : String → String → Except String (List MBRecording)

/-- `MusicBrainzRetriever._get_cover_url` (lines 383-406): prefer a `front`
image, else the first image; every failure returns `None`. -/
def get_cover_url (env : MBEnv) (release_id : String) : Option String :=
  match env.coverArt release_id with
  | .notFound => none
  | .exc => none
  | .ok images =>
    match images.find? (fun im => im.front) with
    | some im => some im.image
    | none => images.head?.map (fun im => im.image)

/-- The release loop of `_search_album_direct` (lines 296-306). -/
def mbDirectLoop (env : MBEnv) (expected : String) : List MBRelease → CoverResult
  | [] => { success := false }
  | release :: rest =>
    let mc := album_names_match release.title expected
    if mc.1 then
      match get_cover_url env release.id with
      | some url =>
        if url ≠ "" then
          { success := true, cover_url := some url,
            release_info := some [("title", some release.title), ("id", some release.id)],
            album_match_confidence := mc.2 }
        else mbDirectLoop env expected rest
      | none => mbDirectLoop env expected rest
    else mbDirectLoop env expected rest

/-- `MusicBrainzRetriever._search_album_direct` (lines 287-308). -/
def mb_search_album_direct (env : MBEnv) (m : TrackMetadata) : CoverResult :=
  if albumTruthy m = false then { success := false }
  else mbDirectLoop env (albumStr m)
    (env.searchReleases m.artist (albumStr m) DEFAULT_SEARCH_LIMIT)

/-- The release loop of `_search_album_fuzzy` (lines 318-328): only
`exact`, `partial` or `word_overlap` confidences are accepted. -/
def mbFuzzyLoop (env : MBEnv) (expected : String) : List MBRelease → CoverResult
  | [] => { success := false }
  | release :: rest =>
    let mc := album_names_match release.title expected
    if mc.1 && (mc.2 ∈ ["exact", "partial", "word_overlap"] : Bool) then
      match get_cover_url env release.id with
      | some url =>
        if url ≠ "" then
          { success := true, cover_url := some url,
            release_info := some [("title", some release.title), ("id", some release.id)],
            album_match_confidence := mc.2 }
        else mbFuzzyLoop env expected rest
      | none => mbFuzzyLoop env expected rest
    else mbFuzzyLoop env expected rest

/-- `MusicBrainzRetriever._search_album_fuzzy` (lines 310-330): search by
artist alone with the extended limit. -/
def mb_search_album_fuzzy (env : MBEnv) (m : TrackMetadata) : CoverResult :=
  if albumTruthy m = false then { success := false }
  else mbFuzzyLoop env (albumStr m)
    (env.searchReleases m.artist "" EXTENDED_SEARCH_LIMIT)

/-- The recording loop of `_search_recording` (lines 344-354).  A recording
whose `releases` list is present but empty raises `IndexError`, which the
surrounding `try/except: pass` turns into the overall failure result. -/
def mbRecordingLoop (env : MBEnv) : List MBRecording → CoverResult
  | [] => { success := false }
  | (none : MBRecording) :: rest => mbRecordingLoop env rest
  | (some [] : MBRecording) :: _ => { success := false }
  | (some (rel :: _) : MBRecording) :: rest =>
    match rel.id? with
    | some rid =>
      match get_cover_url env rid with
      | some url =>
        if url ≠ "" then
          { success := true, cover_url := some url,
            release_info := some [("title", some rel.title), ("id", some rid)],
            album_match_confidence := "recording_match" }
        else mbRecordingLoop env rest
      | none => mbRecordingLoop env rest
    | none => mbRecordingLoop env rest

/-- `MusicBrainzRetriever._search_recording` (lines 332-359). -/
def mb_search_recording (env : MBEnv) (m : TrackMetadata) : CoverResult :=
  match env.recordings m.artist m.title with
  | .error _ => { success := false }
  | .ok recs => mbRecordingLoop env recs

/-- `MusicBrainzRetriever.retrieve_cover` (lines 255-276). -/
def mb_retrieve_cover (env : MBEnv) (m : TrackMetadata) : CoverResult :=
  let r1 := mb_search_album_direct env m
  if r1.success then r1
  else
    let r2 := mb_search_album_fuzzy env m
    if r2.success then r2
    else
      let r3 := mb_search_recording env m
      if r3.success then r3
      else { success := false, error := some "No cover found via MusicBrainz" }

/-- `MusicBrainzRetriever.retrieve_cover_for_recording` (lines 278-286). -/
def mb_retrieve_cover_for_recording (env : MBEnv) (m : TrackMetadata) : CoverResult :=
  let r := mb_search_recording env m
  if r.success then r
  else { success := false, error := some "No cover found via recording search" }



/-- An album dict from the iTunes search (`collectionName` mandatory; the
other keys are read with `.get(..., '')` defaults). -/
structure ITAlbum where
  collectionName : String
  artworkUrl100 : String := ""
  artistName : String := ""
  releaseDate : String := ""
deriving DecidableEq

/-- A song dict from the iTunes track search (all keys read with defaults). -/
structure ITTrack where
  trackName : String := ""
  artistName : String := ""
  releaseDate : String := ""
  artworkUrl100 : String := ""
deriving DecidableEq

structure ITEnv where
  searchAlbums : String → String → Nat → List ITAlbum
  searchTracks : String → String → List ITTrack

/-- Python `str.replace` (all non-overlapping occurrences, left to right),
by fuel recursion; always called here with the non-empty needle
`"100x100"`. -/
def replaceAllAux (needle repl : List Char) : Nat → List Char → List Char
  | 0, hay => hay
  | _, [] => []
  | fuel + 1, c :: rest =>
    if List.isPrefixOf needle (c :: rest) then
      repl ++ replaceAllAux needle repl fuel (List.drop needle.length (c :: rest))
    else c :: replaceAllAux needle repl fuel rest

def pyReplace (s needle repl : String) : String :=
  ⟨replaceAllAux needle.data repl.data s.data.length s.data⟩

example : pyReplace "a100x100b100x100" "100x100" "600x600" = "a600x600b600x600" := by
  decide

/-- `releaseDate[:4] if releaseDate else None`. -/
def itYear (releaseDate : String) : Option String :=
  if releaseDate ≠ "" then some ⟨releaseDate.data.take 4⟩ else none

/-- `ITunesRetriever._get_best_cover_url` (lines 572-581): upgrade the
100x100 artwork URL to 600x600. -/
def get_best_cover_url (artworkUrl100 : String) : String :=
  if artworkUrl100 ≠ "" then pyReplace artworkUrl100 "100x100" "600x600"
  else artworkUrl100

/-- The `release_info` dict the iTunes paths build. -/
def itRelInfo (title artist releaseDate : String) : List (String × Option String) :=
  [("title", some title), ("artist", some artist), ("year", itYear releaseDate)]

/-- The album loop of the iTunes `_search_album_direct` (lines 471-488). -/
def itDirectLoop (expected : String) : List ITAlbum → CoverResult
  | [] => { success := false }
  | album :: rest =>
    let mc := album_names_match album.collectionName expected
    if mc.1 && (mc.2 ∈ ["exact", "partial", "word_overlap"] : Bool) then
      { success := true, cover_url := some (get_best_cover_url album.artworkUrl100),
        release_info := some (itRelInfo album.collectionName album.artistName album.releaseDate),
        album_match_confidence := mc.2 }
    else itDirectLoop expected rest

/-- `ITunesRetriever._search_album_direct` (lines 462-490). -/
def it_search_album_direct (env : ITEnv) (m : TrackMetadata) : CoverResult :=
  if albumTruthy m = false then { success := false }
  else itDirectLoop (albumStr m)
    (env.searchAlbums m.artist (albumStr m) EXTENDED_SEARCH_LIMIT)

/-- The album loop of `_search_artist_albums` (lines 496-513): any matching
confidence is accepted. -/
def itArtistLoop (expected : String) : List ITAlbum → CoverResult
  | [] => { success := false }
  | album :: rest =>
    let mc := album_names_match album.collectionName expected
    if mc.1 then
      { success := true, cover_url := some (get_best_cover_url album.artworkUrl100),
        release_info := some (itRelInfo album.collectionName album.artistName album.releaseDate),
        album_match_confidence := mc.2 }
    else itArtistLoop expected rest

/-- `ITunesRetriever._search_artist_albums` (lines 492-529): search the
artist's albums; on no match fall back to the first returned album with
confidence `artist_match_only`. -/
def it_search_artist_albums (env : ITEnv) (m : TrackMetadata) : CoverResult :=
  let albums := env.searchAlbums m.artist "" ARTIST_ALBUMS_SEARCH_LIMIT
  let looped := itArtistLoop (albumStr m) albums
  if looped.success then looped
  else
    match albums with
    | album :: _ =>
      { success := true, cover_url := some (get_best_cover_url album.artworkUrl100),
        release_info := some (itRelInfo album.collectionName album.artistName album.releaseDate),
        album_match_confidence := "artist_match_only" }
    | [] => { success := false }

/-- `ITunesRetriever.retrieve_cover` (lines 421-437). -/
def it_retrieve_cover (env : ITEnv) (m : TrackMetadata) : CoverResult :=
  let r1 := it_search_album_direct env m
  if r1.success then r1
  else
    let r2 := it_search_artist_albums env m
    if r2.success then r2
    else { success := false, error := some "No cover found via iTunes" }

/-- `ITunesRetriever.retrieve_cover_for_track` (lines 439-461). -/
def it_retrieve_cover_for_track (env : ITEnv) (m : TrackMetadata) : CoverResult :=
  if m.title = "" then { success := false }
  else
    match env.searchTracks m.artist m.title with
    | [] => { success := false }
    | track :: _ =>
      { success := true, cover_url := some (get_best_cover_url track.artworkUrl100),
        release_info := some (itRelInfo track.trackName track.artistName track.releaseDate),
        album_match_confidence := "track_only" }



/-! ## Claim C9: failures never carry image bytes -/

/-- Lines 203-209 of downloader.py: the failure `CoverResult` constructed
when embedding the cover into the MP3 file raises. -/
def embedCoverError (e : String) : CoverResult :=
  { success := false, error := some ("Cover embedding failed: " ++ e),
    album_match_confidence := "error" }

lemma mbDirectLoop_no_data (env : MBEnv) (e : String) :
    ∀ l : List MBRelease, (mbDirectLoop env e l).cover_data = none := by
  intro l
  induction l with
  | nil => rfl
  | cons a rest ih =>
    simp only [mbDirectLoop]
    repeat' split
    all_goals first | rfl | exact ih

lemma mbFuzzyLoop_no_data (env : MBEnv) (e : String) :
    ∀ l : List MBRelease, (mbFuzzyLoop env e l).cover_data = none := by
  intro l
  induction l with
  | nil => rfl
  | cons a rest ih =>
    simp only [mbFuzzyLoop]
    repeat' split
    all_goals first | rfl | exact ih

lemma mbRecordingLoop_no_data (env : MBEnv) :
    ∀ l : List MBRecording, (mbRecordingLoop env l).cover_data = none := by
  intro l
  induction l with
  | nil => rfl
  | cons hd rest ih =>
    cases hd with
    | none =>
      simp only [mbRecordingLoop]
      exact ih
    | some rels =>
      cases rels with
      | nil => rfl
      | cons rel more =>
        simp only [mbRecordingLoop]
        repeat' split
        all_goals first | rfl | exact ih

lemma mb_search_recording_no_data (env : MBEnv) (m : TrackMetadata) :
    (mb_search_recording env m).cover_data = none := by
  unfold mb_search_recording
  split
  · rfl
  · exact mbRecordingLoop_no_data env _

lemma mb_retrieve_cover_no_data (env : MBEnv) (m : TrackMetadata) :
    (mb_retrieve_cover env m).cover_data = none := by
  have hdirect : (mb_search_album_direct env m).cover_data = none := by
    unfold mb_search_album_direct
    split
    · rfl
    · exact mbDirectLoop_no_data env _ _
  have hfuzzy : (mb_search_album_fuzzy env m).cover_data = none := by
    unfold mb_search_album_fuzzy
    split
    · rfl
    · exact mbFuzzyLoop_no_data env _ _
  simp only [mb_retrieve_cover]
  repeat' split
  all_goals first
    | exact hdirect
    | exact hfuzzy
    | exact mb_search_recording_no_data env m
    | rfl

lemma mb_retrieve_cover_for_recording_no_data (env : MBEnv) (m : TrackMetadata) :
    (mb_retrieve_cover_for_recording env m).cover_data = none := by
  simp only [mb_retrieve_cover_for_recording]
  split
  · exact mb_search_recording_no_data env m
  · rfl

lemma itDirectLoop_no_data (e : String) :
    ∀ l : List ITAlbum, (itDirectLoop e l).cover_data = none := by
  intro l
  induction l with
  | nil => rfl
  | cons a rest ih =>
    simp only [itDirectLoop]
    repeat' split
    all_goals first | rfl | exact ih

lemma itArtistLoop_no_data (e : String) :
    ∀ l : List ITAlbum, (itArtistLoop e l).cover_data = none := by
  intro l
  induction l with
  | nil => rfl
  | cons a rest ih =>
    simp only [itArtistLoop]
    repeat' split
    all_goals first | rfl | exact ih

lemma it_retrieve_cover_no_data (env : ITEnv) (m : TrackMetadata) :
    (it_retrieve_cover env m).cover_data = none := by
  have hdirect : (it_search_album_direct env m).cover_data = none := by
    unfold it_search_album_direct
    split
    · rfl
    · exact itDirectLoop_no_data _ _
  have hartist : (it_search_artist_albums env m).cover_data = none := by
    simp only [it_search_artist_albums]
    repeat' split
    all_goals first | rfl | exact itArtistLoop_no_data _ _
  simp only [it_retrieve_cover]
  repeat' split
  all_goals first | exact hdirect | exact hartist | rfl

lemma it_retrieve_cover_for_track_no_data (env : ITEnv) (m : TrackMetadata) :
    (it_retrieve_cover_for_track env m).cover_data = none := by
  simp only [it_retrieve_cover_for_track]
  repeat' split
  all_goals rfl

lemma retrieveFallbackItunes_fail_no_data (env : RetrieverEnv) (m : TrackMetadata)
    (calls : List AdapterCall) :
    (retrieveFallbackItunes env m calls).1.success = false →
    (retrieveFallbackItunes env m calls).1.cover_data = none := by
  simp only [retrieveFallbackItunes]
  repeat' split
  all_goals intro h
  all_goals first | rfl | exact Bool.noConfusion h

lemma retrieveMainCascade_fail_no_data (env : RetrieverEnv) (m : TrackMetadata) :
    (retrieveMainCascade env m).1.success = false →
    (retrieveMainCascade env m).1.cover_data = none := by
  simp only [retrieveMainCascade]
  repeat' split
  all_goals intro h
  all_goals first
    | rfl
    | exact Bool.noConfusion h
    | exact retrieveFallbackItunes_fail_no_data env m _ h

lemma retrieveTrackItunes_fail_no_data (env : RetrieverEnv) (m : TrackMetadata)
    (calls : List AdapterCall) :
    (retrieveTrackItunes env m calls).1.success = false →
    (retrieveTrackItunes env m calls).1.cover_data = none := by
  simp only [retrieveTrackItunes]
  repeat' split
  all_goals intro h
  all_goals first | rfl | exact Bool.noConfusion h

lemma retrieve_cover_without_album_fail_no_data (env : RetrieverEnv)
    (m : TrackMetadata) :
    (retrieve_cover_without_album env m).1.success = false →
    (retrieve_cover_without_album env m).1.cover_data = none := by
  simp only [retrieve_cover_without_album]
  repeat' split
  all_goals intro h
  all_goals first
    | rfl
    | exact Bool.noConfusion h
    | exact retrieveTrackItunes_fail_no_data env m _ h

lemma retrieveRest_fail_no_data (env : RetrieverEnv) (m : TrackMetadata)
    (r : CoverResult) :
    (retrieveRest env m).1 = .ok r → r.success = false → r.cover_data = none := by
  simp only [retrieveRest]
  repeat' split
  all_goals intro hr h
  all_goals injection hr with hr2
  all_goals rw [← hr2] at h ⊢
  all_goals first
    | rfl
    | exact retrieve_cover_without_album_fail_no_data env m h
    | exact retrieveMainCascade_fail_no_data env m h

/-- Claim C9 (confirmed): every `CoverResult` that reports failure carries
no image bytes — at the top-level cascade (including the track-only path),
and in fact both catalog adapters never attach bytes to any result at all
(they only resolve URLs); the cover-embedding failure result is likewise
byteless. -/
theorem c9_failure_carries_no_bytes :
    (∀ (env : RetrieverEnv) (m : TrackMetadata) (r : CoverResult),
        (retrieve_cover env m).1 = .ok r → r.success = false → r.cover_data = none)
    ∧ (∀ (env : MBEnv) (m : TrackMetadata),
        (mb_retrieve_cover env m).cover_data = none)
    ∧ (∀ (env : MBEnv) (m : TrackMetadata),
        (mb_retrieve_cover_for_recording env m).cover_data = none)
    ∧ (∀ (env : ITEnv) (m : TrackMetadata),
        (it_retrieve_cover env m).cover_data = none)
    ∧ (∀ (env : ITEnv) (m : TrackMetadata),
        (it_retrieve_cover_for_track env m).cover_data = none)
    ∧ (∀ e, (embedCoverError e).cover_data = none) := by
  refine ⟨?_, mb_retrieve_cover_no_data, mb_retrieve_cover_for_recording_no_data,
    it_retrieve_cover_no_data, it_retrieve_cover_for_track_no_data, fun _ => rfl⟩
  intro env m r hr h
  revert hr
  simp only [retrieve_cover]
  repeat' split
  all_goals intro hr
  all_goals first
    | exact retrieveRest_fail_no_data env m r hr h
    | (cases hr
       simp at h)
    | cases hr

/-- Witness for C9 at a concrete failing lookup (missing artist). -/
theorem c9_failure_carries_no_bytes_witness :
    ({ success := false, error := some "No artist name provided",
       album_match_confidence := "none" } : CoverResult).cover_data = none :=
  c9_failure_carries_no_bytes.1 c3Env { artist := "" }
    { success := false, error := some "No artist name provided",
      album_match_confidence := "none" } rfl rfl



/-! ## Injectivity of the decimal rendering `Nat.repr`

Needed below to show that the collision-resolution loop of
`_ensure_unique_path` always terminates with the least unused suffix. -/

/-- Value of a decimal digit character. -/
def digitVal (c : Char) : Nat := c.toNat - 48

/-- Value of a decimal digit string (most significant first). -/
def listVal (l : List Char) : Nat := l.foldl (fun a c => 10 * a + digitVal c) 0

lemma listVal_foldl (l : List Char) :
    ∀ a : Nat, l.foldl (fun a c => 10 * a + digitVal c) a =
      a * 10 ^ l.length + listVal l := by
  induction l with
  | nil => intro a; simp [listVal]
  | cons c t ih =>
    intro a
    show t.foldl (fun a c => 10 * a + digitVal c) (10 * a + digitVal c) = _
    rw [ih (10 * a + digitVal c)]
    have h0 : listVal (c :: t) = digitVal c * 10 ^ t.length + listVal t := by
      show t.foldl (fun a c => 10 * a + digitVal c) (10 * 0 + digitVal c) = _
      rw [ih (10 * 0 + digitVal c)]
      ring
    rw [h0]
    simp [List.length_cons]
    ring

lemma digitVal_digitChar {k : Nat} (hk : k < 10) :
    digitVal (Nat.digitChar k) = k := by
  interval_cases k <;> decide

lemma toDigitsCore_val :
    ∀ (f n : Nat) (acc : List Char), n < 10 ^ f →
      listVal (Nat.toDigitsCore 10 f n acc) = n * 10 ^ acc.length + listVal acc := by
  intro f
  induction f with
  | zero =>
    intro n acc hn
    have : n = 0 := by
      simpa using Nat.lt_one_iff.mp (by simpa using hn)
    subst this
    simp [Nat.toDigitsCore]
  | succ f ih =>
    intro n acc hn
    show listVal (if n / 10 = 0 then Nat.digitChar (n % 10) :: acc
      else Nat.toDigitsCore 10 f (n / 10) (Nat.digitChar (n % 10) :: acc)) = _
    by_cases hdiv : n / 10 = 0
    · rw [if_pos hdiv]
      have hlt : n < 10 := by omega
      have hmod : n % 10 = n := Nat.mod_eq_of_lt hlt
      show listVal (Nat.digitChar (n % 10) :: acc) = _
      have : listVal (Nat.digitChar (n % 10) :: acc) =
          digitVal (Nat.digitChar (n % 10)) * 10 ^ acc.length + listVal acc := by
        show acc.foldl (fun a c => 10 * a + digitVal c)
            (10 * 0 + digitVal (Nat.digitChar (n % 10))) = _
        rw [listVal_foldl]
        ring
      rw [this, digitVal_digitChar (Nat.mod_lt n (by omega)), hmod]
    · rw [if_neg hdiv]
      have hn2 : n < 10 * 10 ^ f := by
        rw [pow_succ, Nat.mul_comm] at hn
        exact hn
      have hn' : n / 10 < 10 ^ f := Nat.div_lt_of_lt_mul hn2
      rw [ih (n / 10) (Nat.digitChar (n % 10) :: acc) hn']
      have hx : listVal (Nat.digitChar (n % 10) :: acc) =
          (n % 10) * 10 ^ acc.length + listVal acc := by
        show acc.foldl (fun a c => 10 * a + digitVal c)
            (10 * 0 + digitVal (Nat.digitChar (n % 10))) = _
        rw [listVal_foldl, digitVal_digitChar (Nat.mod_lt n (by omega))]
        ring
      have hd := Nat.div_add_mod n 10
      rw [hx, List.length_cons, pow_succ]
      have hring : n / 10 * (10 ^ acc.length * 10) +
          (n % 10 * 10 ^ acc.length + listVal acc) =
          (10 * (n / 10) + n % 10) * 10 ^ acc.length + listVal acc := by
        ring
      rw [hring, hd]

lemma listVal_repr (n : Nat) : listVal (Nat.repr n).data = n := by
  show listVal (Nat.toDigitsCore 10 (n + 1) n []) = n
  have hn : n < 10 ^ (n + 1) := by
    calc n < 10 ^ n := Nat.lt_pow_self (by omega) n
    _ ≤ 10 ^ (n + 1) := Nat.pow_le_pow_right (by omega) (Nat.le_succ n)
  rw [toDigitsCore_val (n + 1) n [] hn]
  simp [listVal]

lemma nat_repr_injective {m n : Nat} (h : Nat.repr m = Nat.repr n) : m = n := by
  have := congrArg (fun s => listVal s.data) h
  simpa [listVal_repr] using this



/-! ## `DownloadPipeline._ensure_unique_path` (pipeline.py, lines 210-226)

Output paths all live in the single target directory of the batch, so a
path is modelled by its stem and suffix (`Path.stem` / `Path.suffix`); the
filesystem is the list of file names existing in that directory at
construction time.  The source's unbounded `while True` loop is modelled
with fuel `|used| + |existing| + 1`, which the pigeonhole argument below
shows is always sufficient. -/

structure OutPath where
  stem : String
  suffix : String
deriving DecidableEq

def OutPath.name (p : OutPath) : String := p.stem ++ p.suffix

/-- `f"{stem} ({counter}){suffix}"`. -/
def candName (p : OutPath) (n : Nat) : String :=
  p.stem ++ " (" ++ Nat.repr n ++ ")" ++ p.suffix

/-- `candidate not in used_names and not candidate_path.exists()`. -/
def pathFree (existing used : List String) (name : String) : Bool :=
  name ∉ used && name ∉ existing

/-- The `while True` loop: try suffixes `n, n+1, ...` while fuel lasts. -/
def findSuffix (existing used : List String) (p : OutPath) : Nat → Nat → Option Nat
  | 0, _ => none
  | fuel + 1, n =>
    if pathFree existing used (candName p n) then some n
    else findSuffix existing used p fuel (n + 1)

/-- `DownloadPipeline._ensure_unique_path` (the returned path; the caller
records the chosen name in `used_names`).  The `none` arm is unreachable
(`findSuffix_exists` below). -/
def ensure_unique_path (existing used : List String) (p : OutPath) : String :=
  if pathFree existing used p.name then p.name
  else
    match findSuffix existing used p (used.length + existing.length + 1) 1 with
    | some n => candName p n
    | none => p.name

lemma candName_injective (p : OutPath) {m n : Nat}
    (h : candName p m = candName p n) : m = n := by
  unfold candName at h
  have hd := congrArg String.data h
  simp only [show ∀ a b : String, (a ++ b).data = a.data ++ b.data from
    fun a b => rfl, List.append_assoc] at hd
  have h1 := List.append_cancel_left hd
  have h2 := List.append_cancel_left h1
  rw [← List.append_assoc, ← List.append_assoc] at h2
  have h3 := List.append_cancel_right h2
  have h4 := List.append_cancel_right h3
  exact nat_repr_injective (String.ext h4)

/-- Unpacking the `pathFree` boolean. -/
lemma pathFree_iff {existing used : List String} {name : String} :
    pathFree existing used name = true ↔ name ∉ used ∧ name ∉ existing := by
  simp [pathFree]

/-- Pigeonhole: among `|used| + |existing| + 1` distinct candidate names,
one avoids both lists. -/
lemma exists_free_cand (existing used : List String) (p : OutPath) (s : Nat) :
    ∃ k, k < used.length + existing.length + 1 ∧
      pathFree existing used (candName p (s + k)) = true := by
  by_contra hall
  push_neg at hall
  have hmem : ∀ k, k < used.length + existing.length + 1 →
      candName p (s + k) ∈ used ++ existing := by
    intro k hk
    have hne := hall k hk
    have hnot : ¬ (candName p (s + k) ∉ used ∧ candName p (s + k) ∉ existing) :=
      fun hcon => hne (pathFree_iff.mpr hcon)
    rw [not_and_or, not_not, not_not] at hnot
    exact List.mem_append.mpr hnot
  have himage : ∀ k ∈ Finset.range (used.length + existing.length + 1),
      candName p (s + k) ∈ (used ++ existing).toFinset := fun k hk =>
    List.mem_toFinset.mpr (hmem k (Finset.mem_range.mp hk))
  have hinj : Set.InjOn (fun k => candName p (s + k))
      (Finset.range (used.length + existing.length + 1)) := by
    intro a _ b _ hab
    have := candName_injective p hab
    omega
  have hcard := Finset.card_le_card_of_injOn _ himage hinj
  rw [Finset.card_range] at hcard
  have h2 := (used ++ existing).toFinset_card_le
  rw [List.length_append] at h2
  omega

lemma findSuffix_isSome (existing used : List String) (p : OutPath) :
    ∀ (fuel s : Nat),
      (∃ k, k < fuel ∧ pathFree existing used (candName p (s + k)) = true) →
      ∃ n, findSuffix existing used p fuel s = some n := by
  intro fuel
  induction fuel with
  | zero =>
    rintro s ⟨k, hk, _⟩
    omega
  | succ fuel ih =>
    rintro s ⟨k, hk, hfree⟩
    unfold findSuffix
    by_cases h0 : pathFree existing used (candName p s) = true
    · rw [if_pos h0]
      exact ⟨s, rfl⟩
    · rw [if_neg h0]
      apply ih
      have hk0 : k ≠ 0 := by
        rintro rfl
        rw [Nat.add_zero] at hfree
        exact h0 hfree
      refine ⟨k - 1, by omega, ?_⟩
      rw [show s + 1 + (k - 1) = s + k by omega]
      exact hfree

lemma findSuffix_spec (existing used : List String) (p : OutPath) :
    ∀ (fuel s n : Nat), findSuffix existing used p fuel s = some n →
      s ≤ n ∧ pathFree existing used (candName p n) = true ∧
        ∀ j, s ≤ j → j < n → pathFree existing used (candName p j) = false := by
  intro fuel
  induction fuel with
  | zero =>
    intro s n h
    cases h
  | succ fuel ih =>
    intro s n h
    unfold findSuffix at h
    by_cases h0 : pathFree existing used (candName p s) = true
    · rw [if_pos h0] at h
      injection h with h1
      subst h1
      exact ⟨le_refl _, h0, fun j hj1 hj2 => absurd hj1 (by omega)⟩
    · rw [if_neg h0] at h
      obtain ⟨ha, hb, hc⟩ := ih (s + 1) n h
      refine ⟨by omega, hb, ?_⟩
      intro j hj1 hj2
      by_cases hjs : j = s
      · subst hjs
        cases hx : pathFree existing used (candName p j)
        · rfl
        · exact absurd hx h0
      · exact hc j (by omega) hj2

/-- The resolved path avoids both the batch's used names and the existing
filesystem names. -/
lemma ensure_unique_path_free (existing used : List String) (p : OutPath) :
    ensure_unique_path existing used p ∉ used ∧
      ensure_unique_path existing used p ∉ existing := by
  unfold ensure_unique_path
  by_cases h0 : pathFree existing used p.name = true
  · rw [if_pos h0]
    exact pathFree_iff.mp h0
  · rw [if_neg h0]
    obtain ⟨k, hk, hfree⟩ := exists_free_cand existing used p 1
    obtain ⟨n, hn⟩ := findSuffix_isSome existing used p
      (used.length + existing.length + 1) 1 ⟨k, hk, hfree⟩
    rw [hn]
    exact pathFree_iff.mp (findSuffix_spec existing used p _ 1 n hn).2.1

/-- On collision the resolved path is `candName p n` with the least free
`n ≥ 1`. -/
lemma ensure_unique_path_least (existing used : List String) (p : OutPath)
    (h0 : pathFree existing used p.name = false) :
    ∃ n, 1 ≤ n ∧ ensure_unique_path existing used p = candName p n ∧
      pathFree existing used (candName p n) = true ∧
      ∀ j, 1 ≤ j → j < n → pathFree existing used (candName p j) = false := by
  unfold ensure_unique_path
  rw [if_neg (by rw [h0]; exact Bool.false_ne_true)]
  obtain ⟨k, hk, hfree⟩ := exists_free_cand existing used p 1
  obtain ⟨n, hn⟩ := findSuffix_isSome existing used p
    (used.length + existing.length + 1) 1 ⟨k, hk, hfree⟩
  rw [hn]
  obtain ⟨ha, hb, hc⟩ := findSuffix_spec existing used p _ 1 n hn
  exact ⟨n, ha, rfl, hb, hc⟩



/-! ## `DownloadPipeline.create_download_jobs` (pipeline.py, lines 105-135)

The downloader's `create_output_path` (template rendering plus filename
sanitization — scoped out by the specification as filesystem-helper
collaborators) is the injected parameter `outName`; the optional playlist
subfolder only changes the common target directory and is immaterial to the
per-name logic modelled here.  A job's `status`/`error` fields are created
at their defaults and only mutated later during execution. -/

structure DownloadJob where
  url : String
  metadata : TrackMetadata
  output_path : String
deriving DecidableEq

def create_download_jobs (outName : TrackMetadata → OutPath)
    (existing : List String) :
    List TrackMetadata → List String → Except String (List DownloadJob)
  | [], _ => .ok []
  | m :: rest, used =>
    if m.selected = false then create_download_jobs outName existing rest used
    else
      match m.source_url with
      | none => .error "Missing source URL for track; cannot download"
      | some u =>
        if u = "" then .error "Missing source URL for track; cannot download"
        else
          let name := ensure_unique_path existing used (outName m)
          match create_download_jobs outName existing rest (name :: used) with
          | .ok jobs => .ok (⟨u, m, name⟩ :: jobs)
          | .error e => .error e

/-- Claim C7 (confirmed): job construction never emits a job for an
unselected track (every produced job's metadata is selected and carries a
truthy source URL), and it signals an input error — aborting with no jobs —
whenever some selected track lacks a truthy source URL. -/
theorem c7_create_jobs_selection (outName : TrackMetadata → OutPath)
    (existing : List String) :
    (∀ (tracks : List TrackMetadata) (used : List String) (jobs : List DownloadJob),
        create_download_jobs outName existing tracks used = .ok jobs →
        ∀ j ∈ jobs, j.metadata.selected = true ∧ optStrTruthy j.metadata.source_url = true)
    ∧ (∀ (tracks : List TrackMetadata) (used : List String),
        (∃ m ∈ tracks, m.selected = true ∧ optStrTruthy m.source_url = false) →
        ∃ e, create_download_jobs outName existing tracks used = .error e) := by
  constructor
  · intro tracks
    induction tracks with
    | nil =>
      intro used jobs h j hj
      injection h with h1
      rw [← h1] at hj
      cases hj
    | cons m rest ih =>
      intro used jobs h j hj
      unfold create_download_jobs at h
      by_cases hsel : m.selected = false
      · rw [if_pos hsel] at h
        exact ih used jobs h j hj
      · rw [if_neg hsel] at h
        cases hurl : m.source_url with
        | none =>
          rw [hurl] at h
          cases h
        | some u =>
          rw [hurl] at h
          simp only [] at h
          by_cases hu : u = ""
          · rw [if_pos hu] at h
            cases h
          · rw [if_neg hu] at h
            cases hrest : create_download_jobs outName existing rest
                (ensure_unique_path existing used (outName m) :: used) with
            | error e =>
              rw [hrest] at h
              cases h
            | ok jobs2 =>
              rw [hrest] at h
              injection h with h1
              rw [← h1] at hj
              cases hj with
              | head =>
                refine ⟨by revert hsel; cases m.selected <;> simp, ?_⟩
                rw [hurl]
                simpa [optStrTruthy] using hu
              | tail _ hj2 => exact ih _ jobs2 hrest j hj2
  · intro tracks
    induction tracks with
    | nil =>
      rintro used ⟨m, hm, _⟩
      cases hm
    | cons m rest ih =>
      rintro used ⟨w, hw, hwsel, hwurl⟩
      unfold create_download_jobs
      by_cases hsel : m.selected = false
      · rw [if_pos hsel]
        apply ih used
        refine ⟨w, ?_, hwsel, hwurl⟩
        cases hw with
        | head =>
          rw [hsel] at hwsel
          cases hwsel
        | tail _ hw2 => exact hw2
      · rw [if_neg hsel]
        cases hurl : m.source_url with
        | none => exact ⟨_, rfl⟩
        | some u =>
          simp only []
          by_cases hu : u = ""
          · rw [if_pos hu]
            exact ⟨_, rfl⟩
          · rw [if_neg hu]
            have hrest : ∃ e, create_download_jobs outName existing rest
                (ensure_unique_path existing used (outName m) :: used) = .error e := by
              apply ih
              refine ⟨w, ?_, hwsel, hwurl⟩
              cases hw with
              | head =>
                rw [hurl] at hwurl
                simp [optStrTruthy] at hwurl
                exact absurd hwurl hu
              | tail _ hw2 => exact hw2
            obtain ⟨e, he⟩ := hrest
            rw [he]
            exact ⟨e, rfl⟩

/-- Witness for C7 at a concrete batch: a selected track without a source
URL aborts job construction. -/
theorem c7_create_jobs_selection_witness :
    ∃ e, create_download_jobs (fun _ => ⟨"t", ".mp3"⟩) []
        [{ title := "t", artist := "a" }] [] = .error e :=
  (c7_create_jobs_selection (fun _ => ⟨"t", ".mp3"⟩) []).2
    [{ title := "t", artist := "a" }] []
    ⟨{ title := "t", artist := "a" }, by simp, rfl, rfl⟩



/-- Claim C8 (confirmed): within a batch, every constructed job's output
path avoids the filesystem's existing names and all names already taken in
the batch, and the batch's paths are pairwise distinct; on a collision the
resolution picks `" (n)"` before the extension with the least unused
`n ≥ 1`; an already-unique name resolves to itself (with pure inputs the
resolution is a function of its arguments, so repeated calls with the same
inputs return the same path); and, concretely, with `Song.mp3` and
`Song (1).mp3` existing, a new `Song.mp3` request resolves to
`Song (2).mp3`. -/
theorem c8_unique_paths :
    (∀ (outName : TrackMetadata → OutPath) (existing : List String)
        (tracks : List TrackMetadata) (used : List String)
        (jobs : List DownloadJob),
        create_download_jobs outName existing tracks used = .ok jobs →
        (∀ j ∈ jobs, j.output_path ∉ existing ∧ j.output_path ∉ used) ∧
          (jobs.map (fun j => j.output_path)).Nodup)
    ∧ (∀ (existing used : List String) (p : OutPath),
        pathFree existing used p.name = false →
        ∃ n, 1 ≤ n ∧ ensure_unique_path existing used p = candName p n ∧
          pathFree existing used (candName p n) = true ∧
          ∀ j, 1 ≤ j → j < n → pathFree existing used (candName p j) = false)
    ∧ (∀ (existing used : List String) (p : OutPath),
        pathFree existing used p.name = true →
        ensure_unique_path existing used p = p.name)
    ∧ ensure_unique_path ["Song.mp3", "Song (1).mp3"] [] ⟨"Song", ".mp3"⟩ =
        "Song (2).mp3" := by
  refine ⟨?_, ensure_unique_path_least, ?_, by decide⟩
  · intro outName existing tracks
    induction tracks with
    | nil =>
      intro used jobs h
      injection h with h1
      rw [← h1]
      exact ⟨fun j hj => absurd hj (List.not_mem_nil j), List.nodup_nil⟩
    | cons m rest ih =>
      intro used jobs h
      unfold create_download_jobs at h
      by_cases hsel : m.selected = false
      · rw [if_pos hsel] at h
        exact ih used jobs h
      · rw [if_neg hsel] at h
        cases hurl : m.source_url with
        | none =>
          rw [hurl] at h
          cases h
        | some u =>
          rw [hurl] at h
          simp only [] at h
          by_cases hu : u = ""
          · rw [if_pos hu] at h
            cases h
          · rw [if_neg hu] at h
            cases hrest : create_download_jobs outName existing rest
                (ensure_unique_path existing used (outName m) :: used) with
            | error e =>
              rw [hrest] at h
              cases h
            | ok jobs2 =>
              rw [hrest] at h
              injection h with h1
              obtain ⟨hfree1, hfree2⟩ := ensure_unique_path_free existing used (outName m)
              obtain ⟨ihmem, ihnodup⟩ := ih _ jobs2 hrest
              rw [← h1]
              constructor
              · intro j hj
                cases hj with
                | head => exact ⟨hfree2, hfree1⟩
                | tail _ hj2 =>
                  obtain ⟨hj2a, hj2b⟩ := ihmem j hj2
                  refine ⟨hj2a, fun hmem => hj2b (List.mem_cons_of_mem _ hmem)⟩
              · rw [List.map_cons]
                refine List.nodup_cons.mpr ⟨?_, ihnodup⟩
                intro hmem
                obtain ⟨j, hjmem, hjeq⟩ := List.mem_map.mp hmem
                have := (ihmem j hjmem).2
                rw [hjeq] at this
                exact this (List.mem_cons_self _ _)
  · intro existing used p h0
    unfold ensure_unique_path
    rw [if_pos h0]

/-- Witness for C8 at a concrete batch against an existing `Song.mp3` and
`Song (1).mp3`. -/
theorem c8_unique_paths_witness :
    (∀ j ∈ ([⟨"u", { title := "t", artist := "a", source_url := some "u" },
          "Song (2).mp3"⟩] : List DownloadJob),
        j.output_path ∉ ["Song.mp3", "Song (1).mp3"] ∧ j.output_path ∉ ([] : List String)) ∧
      (([⟨"u", { title := "t", artist := "a", source_url := some "u" },
          "Song (2).mp3"⟩] : List DownloadJob).map (fun j => j.output_path)).Nodup :=
  c8_unique_paths.1 (fun _ => ⟨"Song", ".mp3"⟩) ["Song.mp3", "Song (1).mp3"]
    [{ title := "t", artist := "a", source_url := some "u" }] [] _ (by rfl)



/-! ## Claim C1: cover pre-warm and the per-run invocation discipline

`DownloadPipeline.download` on a fresh pipeline: `_pre_cache_album_covers`
(pipeline.py, lines 182-208) runs over an empty `AlbumCoverCache`, then the
jobs execute sequentially through
`AudioDownloader._embed_album_cover_with_cache` (downloader.py, lines
157-209).  `retrieve` is the cascade `AlbumCoverRetriever.retrieve_cover`
as an oracle over the synthetic/track metadata; each model function also
returns the list of cascade invocations it performs, keyed by the metadata
passed to the cascade. -/

/-- One iteration of the unique-albums collection loop (lines 187-193):
jobs with truthy artist and album are recorded under their *raw*
`(artist, album)` tuple, keeping the first job's authoritative URL, when
the tuple is new and the cache has no entry for the pair. -/
def preWarmStep (cache : AlbumCoverCache)
    (acc : List ((String × String) × Option String)) (m : TrackMetadata) :
    List ((String × String) × Option String) :=
  if m.artist ≠ "" ∧ albumTruthy m = true then
    if (m.artist, albumStr m) ∉ acc.map Prod.fst ∧
        (get_cover cache m.artist (albumStr m)).isNone then
      acc ++ [((m.artist, albumStr m), m.youtube_album_cover_url)]
    else acc
  else acc

/-- The `unique_albums` dict of `_pre_cache_album_covers` (insertion
order). -/
def preWarmList (cache : AlbumCoverCache) (jobs : List TrackMetadata) :
    List ((String × String) × Option String) :=
  jobs.foldl (preWarmStep cache) []

/-- The synthetic metadata built in `_retrieve_covers` (lines 199-204). -/
def preWarmMeta (artist album : String) (yt : Option String) : TrackMetadata :=
  { title := "Unknown Title", artist := artist, album := some album,
    youtube_album_cover_url := yt }

/-- `_pre_cache_album_covers`: retrieve once per collected pair and store
the result in the cache. -/
def pre_cache_album_covers (retrieve : TrackMetadata → CoverResult)
    (cache : AlbumCoverCache) (jobs : List TrackMetadata) : AlbumCoverCache :=
  (preWarmList cache jobs).foldl
    (fun c e => set_cover c e.1.1 e.1.2 (retrieve (preWarmMeta e.1.1 e.1.2 e.2)))
    cache

/-- The cache discipline of `_embed_album_cover_with_cache` (lines
164-176): consult the cache for a truthy (artist, album) pair; on a miss
invoke the cascade and store the result under the same pair.  The
mutagen tag-writing I/O consumes the returned result but touches neither
the cache nor the invocation count (its failure construction is
`embedCoverError`, see C9).  The third component records the cascade
invocation, if any. -/
def embed_album_cover_with_cache (retrieve : TrackMetadata → CoverResult)
    (cache : AlbumCoverCache) (m : TrackMetadata) :
    CoverResult × AlbumCoverCache × List TrackMetadata :=
  let cached := if m.artist ≠ "" ∧ albumTruthy m = true then
    get_cover cache m.artist (albumStr m) else none
  match cached with
  | some r => (r, cache, [])
  | none =>
    let r := retrieve m
    let cache2 := if m.artist ≠ "" ∧ albumTruthy m = true then
      set_cover cache m.artist (albumStr m) r else cache
    (r, cache2, [m])

/-- The sequential execution phase of `DownloadPipeline.download`
(lines 150-178), restricted to its cover handling: per-job cover results,
final cache, cascade invocations. -/
def runExec (retrieve : TrackMetadata → CoverResult) :
    List TrackMetadata → AlbumCoverCache →
    List CoverResult × AlbumCoverCache × List TrackMetadata
  | [], cache => ([], cache, [])
  | m :: rest, cache =>
    let step := embed_album_cover_with_cache retrieve cache m
    let tail := runExec retrieve rest step.2.1
    (step.1 :: tail.1, tail.2.1, step.2.2 ++ tail.2.2)

/-- One full `download` run on a fresh pipeline (empty cache): pre-warm,
then execute. -/
def download_run (retrieve : TrackMetadata → CoverResult)
    (jobs : List TrackMetadata) :
    List CoverResult × AlbumCoverCache × List TrackMetadata :=
  runExec retrieve jobs (pre_cache_album_covers retrieve [] jobs)

/-- All cascade invocations of a run, as (artist, album) pairs: the
pre-warm phase's pairs followed by the execution phase's. -/
def runInvocationPairs (retrieve : TrackMetadata → CoverResult)
    (jobs : List TrackMetadata) : List (String × String) :=
  (preWarmList [] jobs).map Prod.fst ++
    (download_run retrieve jobs).2.2.map (fun m => (m.artist, albumStr m))

/-- Number of cascade invocations whose pair has normalized key `k`. -/
def invocationsForKey (retrieve : TrackMetadata → CoverResult)
    (jobs : List TrackMetadata) (k : String) : Nat :=
  ((runInvocationPairs retrieve jobs).filter
    (fun pr => normKey pr.1 pr.2 = k)).length

/-- An inert cascade oracle for the counterexample. -/
def c1Retrieve : TrackMetadata → CoverResult :=
  fun _ => { success := false, album_match_confidence := "none" }

/-- Counterexample to claim C1 as stated: two jobs whose (artist, album)
pairs differ only in case — `("A", "b")` and `("a", "b")` — share one
normalized key yet trigger two cascade invocations in the pre-warm phase,
because `_pre_cache_album_covers` deduplicates on the raw tuples and only
consults the (still empty) cache. -/
theorem c1_counterexample :
    normKey "A" "b" = normKey "a" "b" ∧
      invocationsForKey c1Retrieve
        [{ title := "t1", artist := "A", album := some "b" },
         { title := "t2", artist := "a", album := some "b" }]
        (normKey "a" "b") = 2 := by
  constructor
  · rfl
  · rfl



lemma preWarm_keys_subset (c0 : AlbumCoverCache) :
    ∀ (l : List TrackMetadata) (acc : List ((String × String) × Option String))
      (x : String × String), x ∈ acc.map Prod.fst →
      x ∈ ((l.foldl (preWarmStep c0) acc).map Prod.fst) := by
  intro l
  induction l with
  | nil => intro acc x hx; exact hx
  | cons m rest ih =>
    intro acc x hx
    show x ∈ ((rest.foldl (preWarmStep c0) (preWarmStep c0 acc m)).map Prod.fst)
    apply ih
    unfold preWarmStep
    split
    · split
      · rw [List.map_append]
        exact List.mem_append_left _ hx
      · exact hx
    · exact hx

lemma preWarm_keys_nodup (c0 : AlbumCoverCache) :
    ∀ (l : List TrackMetadata) (acc : List ((String × String) × Option String)),
      (acc.map Prod.fst).Nodup →
      ((l.foldl (preWarmStep c0) acc).map Prod.fst).Nodup := by
  intro l
  induction l with
  | nil => intro acc h; exact h
  | cons m rest ih =>
    intro acc h
    apply ih
    unfold preWarmStep
    split
    · split
      · next hcond =>
        rw [List.map_append]
        have hperm : ((acc.map Prod.fst) ++ [(m.artist, albumStr m)]).Nodup ↔
            ((m.artist, albumStr m) :: acc.map Prod.fst).Nodup :=
          (List.perm_append_singleton _ _).nodup_iff
        exact hperm.mpr (List.nodup_cons.mpr ⟨hcond.1, h⟩)
      · exact h
    · exact h

lemma get_cover_empty (a b : String) : get_cover [] a b = none := rfl

lemma mem_preWarmList_aux :
    ∀ (l : List TrackMetadata) (acc : List ((String × String) × Option String))
      (m : TrackMetadata), m ∈ l → m.artist ≠ "" → albumTruthy m = true →
      (m.artist, albumStr m) ∈ ((l.foldl (preWarmStep []) acc).map Prod.fst) := by
  intro l
  induction l with
  | nil =>
    intro acc m hm
    cases hm
  | cons j rest ih =>
    intro acc m hm ha hb
    cases hm with
    | head =>
      show (j.artist, albumStr j) ∈
        ((rest.foldl (preWarmStep []) (preWarmStep [] acc j)).map Prod.fst)
      apply preWarm_keys_subset
      unfold preWarmStep
      rw [if_pos ⟨ha, hb⟩]
      by_cases hin : (j.artist, albumStr j) ∈ acc.map Prod.fst
      · rw [if_neg (fun hcon => hcon.1 hin)]
        exact hin
      · rw [if_pos ⟨hin, by rw [get_cover_empty]; rfl⟩]
        rw [List.map_append]
        exact List.mem_append_right _ (by simp)
    | tail _ hm2 =>
      show (m.artist, albumStr m) ∈
        ((rest.foldl (preWarmStep []) (preWarmStep [] acc j)).map Prod.fst)
      exact ih _ m hm2 ha hb

/-- A cache entry stays present under further `set_cover` writes. -/
lemma get_set_isSome {cache : AlbumCoverCache} {a b : String}
    (h : (get_cover cache a b).isSome) (x y : String) (r : CoverResult) :
    (get_cover (set_cover cache x y r) a b).isSome := by
  unfold get_cover at h
  unfold get_cover set_cover
  show (match normKey a b == normKey x y with
    | true => some r
    | false => List.lookup (normKey a b) cache).isSome = true
  cases hbe : (normKey a b == normKey x y)
  · exact h
  · rfl

/-- A `set_cover` write for the same pair makes the entry present. -/
lemma get_set_self_isSome (cache : AlbumCoverCache) (a b : String)
    (r : CoverResult) : (get_cover (set_cover cache a b r) a b).isSome := by
  unfold get_cover set_cover
  show (match normKey a b == normKey a b with
    | true => some r
    | false => List.lookup (normKey a b) cache).isSome = true
  rw [show (normKey a b == normKey a b) = true from beq_self_eq_true _]
  rfl

lemma get_preWarm_fold_isSome (retrieve : TrackMetadata → CoverResult) :
    ∀ (entries : List ((String × String) × Option String))
      (cache : AlbumCoverCache) (a b : String),
      ((a, b) ∈ entries.map Prod.fst ∨ (get_cover cache a b).isSome) →
      (get_cover (entries.foldl
          (fun c e => set_cover c e.1.1 e.1.2 (retrieve (preWarmMeta e.1.1 e.1.2 e.2)))
          cache) a b).isSome := by
  intro entries
  induction entries with
  | nil =>
    intro cache a b h
    rcases h with h | h
    · cases h
    · exact h
  | cons e rest ih =>
    rcases e with ⟨⟨ea, eb⟩, ey⟩
    intro cache a b h
    apply ih
    rcases h with h | h
    · rw [List.map_cons] at h
      rcases List.mem_cons.mp h with heq | h2
      · right
        have hea : a = ea := congrArg Prod.fst heq
        have heb : b = eb := congrArg Prod.snd heq
        subst hea
        subst heb
        exact get_set_self_isSome cache a b _
      · left
        exact h2
    · right
      exact get_set_isSome h _ _ _

/-- After the pre-warm phase, every job with truthy artist and album finds
its pair in the cache. -/
lemma pre_warm_hit (retrieve : TrackMetadata → CoverResult)
    (jobs : List TrackMetadata) (m : TrackMetadata) (hm : m ∈ jobs)
    (ha : m.artist ≠ "") (hb : albumTruthy m = true) :
    (get_cover (pre_cache_album_covers retrieve [] jobs) m.artist (albumStr m)).isSome := by
  unfold pre_cache_album_covers
  apply get_preWarm_fold_isSome
  left
  exact mem_preWarmList_aux jobs [] m hm ha hb

lemma runExec_cons (retrieve : TrackMetadata → CoverResult) (m : TrackMetadata)
    (rest : List TrackMetadata) (cache : AlbumCoverCache) :
    runExec retrieve (m :: rest) cache =
      ((embed_album_cover_with_cache retrieve cache m).1 ::
          (runExec retrieve rest
            (embed_album_cover_with_cache retrieve cache m).2.1).1,
        (runExec retrieve rest
          (embed_album_cover_with_cache retrieve cache m).2.1).2.1,
        (embed_album_cover_with_cache retrieve cache m).2.2 ++
          (runExec retrieve rest
            (embed_album_cover_with_cache retrieve cache m).2.1).2.2) := rfl

/-- During the execution phase, when the cache already covers every job's
truthy pair, the cache never changes, no full-pair job invokes the cascade,
and each full-pair job's result is exactly the cache entry for its pair. -/
lemma runExec_invariant (retrieve : TrackMetadata → CoverResult) :
    ∀ (jobs : List TrackMetadata) (cache : AlbumCoverCache),
      (∀ m ∈ jobs, m.artist ≠ "" → albumTruthy m = true →
        (get_cover cache m.artist (albumStr m)).isSome) →
      (runExec retrieve jobs cache).2.1 = cache ∧
      (∀ m ∈ (runExec retrieve jobs cache).2.2,
        m.artist = "" ∨ albumTruthy m = false) ∧
      (∀ (i : Nat) (m : TrackMetadata), jobs[i]? = some m → m.artist ≠ "" →
        albumTruthy m = true →
        (runExec retrieve jobs cache).1[i]? = get_cover cache m.artist (albumStr m)) := by
  intro jobs
  induction jobs with
  | nil =>
    intro cache hhit
    refine ⟨rfl, ?_, ?_⟩
    · intro m hm
      cases hm
    · intro i m him
      rw [List.getElem?_nil] at him
      cases him
  | cons m rest ih =>
    intro cache hhit
    have hrest := ih cache (fun x hx hxa hxb =>
      hhit x (List.mem_cons_of_mem _ hx) hxa hxb)
    by_cases htr : m.artist ≠ "" ∧ albumTruthy m = true
    · have hsome := hhit m (List.mem_cons_self _ _) htr.1 htr.2
      obtain ⟨r, hr⟩ := Option.isSome_iff_exists.mp hsome
      have hstep : embed_album_cover_with_cache retrieve cache m = (r, cache, []) := by
        unfold embed_album_cover_with_cache
        rw [if_pos htr, hr]
      have h1 : (embed_album_cover_with_cache retrieve cache m).1 = r := by rw [hstep]
      have h2 : (embed_album_cover_with_cache retrieve cache m).2.1 = cache := by
        rw [hstep]
      have h3 : (embed_album_cover_with_cache retrieve cache m).2.2 = [] := by
        rw [hstep]
      rw [runExec_cons, h1, h2, h3]
      refine ⟨hrest.1, ?_, ?_⟩
      · intro x hx
        rw [List.nil_append] at hx
        exact hrest.2.1 x hx
      · intro i x hix hxa hxb
        cases i with
        | zero =>
          rw [List.getElem?_cons_zero] at hix
          injection hix with hix1
          subst hix1
          rw [List.getElem?_cons_zero, hr]
        | succ i2 =>
          rw [List.getElem?_cons_succ] at hix
          rw [List.getElem?_cons_succ]
          exact hrest.2.2 i2 x hix hxa hxb
    · have hstep : embed_album_cover_with_cache retrieve cache m =
          (retrieve m, cache, [m]) := by
        unfold embed_album_cover_with_cache
        simp only [if_neg htr]
      have h1 : (embed_album_cover_with_cache retrieve cache m).1 = retrieve m := by
        rw [hstep]
      have h2 : (embed_album_cover_with_cache retrieve cache m).2.1 = cache := by
        rw [hstep]
      have h3 : (embed_album_cover_with_cache retrieve cache m).2.2 = [m] := by
        rw [hstep]
      rw [runExec_cons, h1, h2, h3]
      refine ⟨hrest.1, ?_, ?_⟩
      · intro x hx
        rcases List.mem_cons.mp hx with hxm | hx2
        · subst hxm
          rw [not_and_or] at htr
          rcases htr with hh1 | hh2
          · left
            rw [not_not] at hh1
            exact hh1
          · right
            cases hx2 : albumTruthy x
            · rfl
            · exact absurd hx2 hh2
        · exact hrest.2.1 x hx2
      · intro i x hix hxa hxb
        cases i with
        | zero =>
          rw [List.getElem?_cons_zero] at hix
          injection hix with hix1
          subst hix1
          exact absurd ⟨hxa, hxb⟩ htr
        | succ i2 =>
          rw [List.getElem?_cons_succ] at hix
          rw [List.getElem?_cons_succ]
          exact hrest.2.2 i2 x hix hxa hxb

/-- Claim C1 (corrected): in one run of `download` on a fresh pipeline,
the pre-warm phase performs at most one cascade invocation per unique
*raw* `(artist, album)` pair (its keys are pairwise distinct), the
execution phase performs no cascade invocation at all for jobs carrying
both a truthy artist and album (only artist-less or album-less jobs invoke
the cascade there, uncached), the cache is not modified during execution,
and every full-pair job's cover result is exactly the pre-warmed cache
entry under its normalized key — so all jobs whose pairs share one
normalized key receive the same cached `CoverResult`, bytes included.
Raw pairs that differ only by case or outer whitespace normalize to the
same cache key but are *not* deduplicated: each triggers its own pre-warm
cascade invocation, the later result overwriting the earlier. -/
theorem c1_per_run_invocations (retrieve : TrackMetadata → CoverResult)
    (jobs : List TrackMetadata) :
    ((preWarmList [] jobs).map Prod.fst).Nodup
    ∧ (download_run retrieve jobs).2.1 = pre_cache_album_covers retrieve [] jobs
    ∧ (∀ m ∈ (download_run retrieve jobs).2.2,
        m.artist = "" ∨ albumTruthy m = false)
    ∧ (∀ (i : Nat) (m : TrackMetadata), jobs[i]? = some m → m.artist ≠ "" →
        albumTruthy m = true →
        (download_run retrieve jobs).1[i]? =
          get_cover (pre_cache_album_covers retrieve [] jobs) m.artist (albumStr m)
        ∧ (get_cover (pre_cache_album_covers retrieve [] jobs) m.artist
            (albumStr m)).isSome) := by
  have hinv := runExec_invariant retrieve jobs (pre_cache_album_covers retrieve [] jobs)
    (fun m hm ha hb => pre_warm_hit retrieve jobs m hm ha hb)
  refine ⟨preWarm_keys_nodup [] jobs [] List.nodup_nil, hinv.1, hinv.2.1, ?_⟩
  intro i m him ha hb
  have hmem : m ∈ jobs := List.getElem?_mem him
  exact ⟨hinv.2.2 i m him ha hb, pre_warm_hit retrieve jobs m hmem ha hb⟩

/-- Witness for the corrected C1 at the two-job batch of the
counterexample: the first job's execution-phase result is the cache entry
under the shared normalized key. -/
theorem c1_per_run_invocations_witness :
    ((download_run c1Retrieve
        [{ title := "t1", artist := "A", album := some "b" },
         { title := "t2", artist := "a", album := some "b" }]).1[0]? =
      get_cover (pre_cache_album_covers c1Retrieve []
        [{ title := "t1", artist := "A", album := some "b" },
         { title := "t2", artist := "a", album := some "b" }]) "A" "b")
    ∧ (get_cover (pre_cache_album_covers c1Retrieve []
        [{ title := "t1", artist := "A", album := some "b" },
         { title := "t2", artist := "a", album := some "b" }]) "A" "b").isSome :=
  (c1_per_run_invocations c1Retrieve
      [{ title := "t1", artist := "A", album := some "b" },
       { title := "t2", artist := "a", album := some "b" }]).2.2.2 0
    { title := "t1", artist := "A", album := some "b" } rfl (by decide) rfl


end YtMp3
